import Mathlib

/-
Verification of the joint-orientation engine of tpDcc-dccs-maya
(src/tpDcc/dccs/maya/core/joint.py) against its natural-language
specification.

The embedding models the Maya scene consumed by `OrientJoint` and
`OrientJointAttributes` as an explicit state: a node list, a parent
relation, world poses, a typed attribute store, a set of active pin
constraints and a fresh-id counter.  Every step of
`OrientJoint.run` is transcribed from the Python source; calls into
modules that are not part of the analyzed sources (the `transform`
and `attribute` helper modules) are modelled from the specification
and are marked as such in their doc comments.  Rotation values are
abstract tokens and the rigid transform that a rotation change
induces on a subtree is an arbitrary function, so every theorem
about pose preservation holds for all possible solver outcomes.
-/

set_option maxHeartbeats 1000000

namespace JointOrient

/-- Integer 3-vector; the aim/up vector entries in the source are integer
literals, so integer components are exact. -/
abbrev Vec3 := Int × Int × Int

/-- Componentwise vector addition, used for the relative `move` command. -/
def addV (a b : Vec3) : Vec3 := (a.1 + b.1, a.2.1 + b.2.1, a.2.2 + b.2.2)

/-- World-space pose of a scene node: a position and an abstract rotation
token.  Rotation tokens are never interpreted; the effect of a rotation
change on poses is an arbitrary function parameter of `run`. -/
structure Pose where
  pos : Vec3
  rot : Int
deriving DecidableEq

/-- Shallow embedding of the Maya scene state touched by joint.py: the node
list, the parent relation (child, parent) pairs, world poses, the attribute
store, the set of nodes whose rotate channels are locked, the active pin
constraints as (helper node, pinned target) pairs, and a fresh-id counter. -/
structure Scene where
  nodes : List Nat
  par : List (Nat × Nat)
  poseF : Nat → Pose
  attrs : List (Nat × String × Int)
  locked : List Nat
  pins : List (Nat × Nat)
  nextId : Nat

/-- Parent of a node, as `maya.cmds.listRelatives(node, p=True)` returns it. -/
def lookupPar (sc : Scene) (n : Nat) : Option Nat :=
  (sc.par.find? (fun e => e.1 == n)).map (·.2)

/-- Attribute lookup, as `maya.cmds.getAttr` on an existing attribute. -/
def getAttr (sc : Scene) (n : Nat) (a : String) : Option Int :=
  (sc.attrs.find? (fun e => e.1 == n && e.2.1 == a)).map (·.2.2)

/-- Attribute existence check, as `maya.cmds.objExists(node + attr)`. -/
def hasAttrB (sc : Scene) (n : Nat) (a : String) : Bool :=
  (getAttr sc n a).isSome

/-- Attribute write; the newest binding shadows older ones. -/
def setAttr (sc : Scene) (n : Nat) (a : String) (v : Int) : Scene :=
  { sc with attrs := (n, a, v) :: sc.attrs }

/-- Children of a node in scene order, as
`maya.cmds.listRelatives(node, f=True, type=...)` returns them. -/
def childrenOf (sc : Scene) (j : Nat) : List Nat :=
  sc.nodes.filter (fun n => lookupPar sc n == some j)

/-- Chain of nodes walking up the parent relation from `n`, stopping just
below `j`; `some l` means `j` is an ancestor of `n` and `l` lists the nodes
strictly below `j` on that path, starting with `n` itself. -/
def pathUpTo (sc : Scene) : Nat → Nat → Nat → Option (List Nat)
  | 0, _, _ => none
  | f + 1, j, n =>
    match lookupPar sc n with
    | none => none
    | some p => if p = j then some [n] else (pathUpTo sc f j p).map (n :: ·)

/-- A node is pinned when some active pin constraint targets it. -/
def pinnedB (sc : Scene) (n : Nat) : Bool :=
  sc.pins.any (fun e => e.2 == n)

/-- A node is affected by a rotation change of `j` when it is `j` itself or
a descendant of `j` whose path up to `j` contains no pinned node: a pin
constraint holds its target (and therefore everything below it) fixed in
world space while the joint is being reoriented. -/
def affectedB (sc : Scene) (j n : Nat) : Bool :=
  n == j ||
    match pathUpTo sc sc.nodes.length j n with
    | none => false
    | some l => l.all (fun m => !pinnedB sc m)

/-- Applies the world-pose effect `eff` of reorienting joint `j` to every
affected node, leaving pinned and shielded nodes untouched. -/
def applySubtree (eff : Pose → Pose) (j : Nat) (sc : Scene) : Scene :=
  { sc with poseF := fun n => if affectedB sc j n then eff (sc.poseF n) else sc.poseF n }

/-- Warnings that joint.py logs through LOGGER.warning. -/
inductive Warn where
  | inactive
  | rotAxis
  | noOrientAttrs
  | triangle
  | noChild2
deriving DecidableEq

/-- Observable events of a run: warnings, freezes, pins, node creation, the
aim-constraint application with all its arguments, deletion, and the
rotate-axis zeroing. -/
inductive Ev where
  | warn (w : Warn)
  | freeze (j : Nat)
  | pin (j : Nat)
  | mkNode (i : Nat)
  | aim (target : Nat) (upObj : Option Nat) (aimV upV wuV : Vec3) (upType : String)
  | del (ids : List Nat)
  | zeroRA (j : Nat)
deriving DecidableEq

/-- The orient-attribute values read by `OrientJoint._get_values`. -/
structure Vals where
  aimAxis : Int
  upAxis : Int
  worldUpAxis : Int
  aimAt : Int
  aimUpAt : Int
  triTop : Int
  triMid : Int
  triBtm : Int
  active : Int
deriving DecidableEq

/-- The `aim_at` / `aim_up_at` fields of an `OrientJoint` hold either the
initial integer index or, after resolution, a node (or Python None). -/
inductive AimRaw where
  | idx (i : Int)
  | node (o : Option Nat)
deriving DecidableEq

/-- The instance state of `OrientJoint` (its `self` fields).  `chidl2` is
the misspelled field assigned in `__init__`; `child2 = none` means the
correctly spelled attribute was never assigned, so reading it raises
AttributeError. -/
structure OJ where
  joint : Nat
  orient_values : Option Vals
  aim_vector : Vec3
  up_vector : Vec3
  world_up_vector : Vec3
  aim_at : AimRaw
  aim_up_at : AimRaw
  child : Option Nat
  chidl2 : Option Nat
  child2 : Option (Option Nat)
  grand_child : Option Nat
  parent : Option Nat
  grand_parent : Option Nat
  delete_later : List Nat
  up_space_type : String
deriving DecidableEq

/-- Full machine state: scene, `OrientJoint` instance, event trace (newest
event first). -/
structure St where
  sc : Scene
  oj : OJ
  tr : List Ev

/-- Outcome of a step: normal return or a propagating Python exception. -/
inductive Res (α : Type) where
  | ok (a : α)
  | err
deriving DecidableEq

def pushEv (e : Ev) (st : St) : St := { st with tr := e :: st.tr }

def pushWarn (w : Warn) (st : St) : St := pushEv (.warn w) st

def setPose (n : Nat) (p : Pose) (sc : Scene) : Scene :=
  { sc with poseF := fun m => if m = n then p else sc.poseF m }

/-- Creation of an empty group or helper node (`maya.cmds.group(empty=True)`),
world-parented, placed at the origin, with a fresh id. -/
def createNode (st : St) : Nat × St :=
  let i := st.sc.nextId
  (i, pushEv (.mkNode i)
    { st with sc := { st.sc with
        nodes := st.sc.nodes ++ [i],
        poseF := fun m => if m = i then ⟨(0, 0, 0), 0⟩ else st.sc.poseF m,
        nextId := i + 1 } })

/-- Modelled from the spec: `transform.MatchTransform(...).translation()`
from the missing transform module copies the source world position onto the
target. -/
def matchTranslation (s g : Nat) (st : St) : St :=
  { st with sc := setPose g ⟨(st.sc.poseF s).pos, (st.sc.poseF g).rot⟩ st.sc }

/-- Modelled from the spec: `transform.MatchTransform(...).rotation()` from
the missing transform module copies the source world rotation onto the
target. -/
def matchRotation (s g : Nat) (st : St) : St :=
  { st with sc := setPose g ⟨(st.sc.poseF g).pos, (st.sc.poseF s).rot⟩ st.sc }

/-- Modelled from the spec: `translation_rotation()` copies the full source
world pose onto the target. -/
def matchTR (s g : Nat) (st : St) : St :=
  { st with sc := setPose g (st.sc.poseF s) st.sc }

/-- Relative `maya.cmds.move` of a world-parented helper group. -/
def moveRel (v : Vec3) (g : Nat) (st : St) : St :=
  { st with sc := setPose g ⟨addV (st.sc.poseF g).pos v, (st.sc.poseF g).rot⟩ st.sc }

def pushDeleteLater (n : Nat) (st : St) : St :=
  { st with oj := { st.oj with delete_later := st.oj.delete_later ++ [n] } }

/-- Embedding of `OrientJoint.get_vector_from_axis`; the index comes from a
host-validated enum attribute with seven entries, so 0 to 6 are the
reachable inputs. -/
def get_vector_from_axis (i : Int) : Vec3 :=
  if i = 0 then (1, 0, 0)
  else if i = 1 then (0, 1, 0)
  else if i = 2 then (0, 0, 1)
  else if i = 3 then (-1, 0, 0)
  else if i = 4 then (0, -1, 0)
  else if i = 5 then (0, 0, -1)
  else (0, 0, 0)

/-- Embedding of `OrientJoint._get_position_group`: creates an empty group,
matches it to the given transform, records it for deletion.  When the
source transform is Python None the transform match fails (modelled from
the spec: resolution of a missing relative fails); note that the group has
already been created at that point but is not yet recorded. -/
def get_position_group (src : Option Nat) (st : St) : Res Nat × St :=
  let (g, st1) := createNode st
  match src with
  | none => (.err, st1)
  | some s => (.ok g, pushDeleteLater g (matchTR s g st1))

/-- Embedding of `OrientJoint._get_local_up_group`: group matching the given
transform rotation, positioned at the joint, moved one unit in X. -/
def get_local_up_group (src : Option Nat) (st : St) : Res Nat × St :=
  let (g, st1) := createNode st
  match src with
  | none => (.err, st1)
  | some s =>
    let st2 := matchRotation s g st1
    let st3 := matchTranslation st2.oj.joint g st2
    let st4 := moveRel (1, 0, 0) g st3
    (.ok g, pushDeleteLater g st4)

def liftOpt : Res Nat × St → Res (Option Nat) × St
  | (.ok g, s) => (.ok (some g), s)
  | (.err, s) => (.err, s)

/-- Embedding of `OrientJoint._get_aim_at`: indices below 3 build a world
axis target at the joint, 3 aims at the child, 4 at the parent, 5 at the
local parent frame; any other index falls through returning None. -/
def get_aim_at (i : Int) (st : St) : Res (Option Nat) × St :=
  if i < 3 then
    let (g, st1) := createNode st
    let st2 := matchTranslation st1.oj.joint g st1
    let st3 :=
      if i = 0 then moveRel (1, 0, 0) g st2
      else if i = 1 then moveRel (0, 1, 0) g st2
      else if i = 2 then moveRel (0, 0, 1) g st2
      else st2
    (.ok (some g), pushDeleteLater g st3)
  else if i = 3 then liftOpt (get_position_group st.oj.child st)
  else if i = 4 then liftOpt (get_position_group st.oj.parent st)
  else if i = 5 then liftOpt (get_local_up_group st.oj.parent st)
  else (.ok none, st)

/-- Embedding of `OrientJoint._get_triangle_group`'s index dispatch, kept
exactly as written in the source: the branch for index 3 is missing and the
test for index 4 appears twice, the second occurrence (grand child) being
dead code. -/
def triangle_target (oj : OJ) (i : Int) : Option Nat :=
  if i = 0 then oj.grand_parent
  else if i = 1 then oj.parent
  else if i = 2 then some oj.joint
  else if i = 4 then oj.child
  else if i = 4 then oj.grand_child
  else none

/-- Embedding of `OrientJoint._get_triangle_group`: resolves the anchor index
and builds a position group for it, or returns None when the anchor is
missing. -/
def get_triangle_group (i : Int) (st : St) : Res (Option Nat) × St :=
  match triangle_target st.oj i with
  | none => (.ok none, st)
  | some t => liftOpt (get_position_group (some t) st)

/-- Modelled from the spec: `xform_utils.create_group_in_plane` lives in the
missing transform module; it creates a node placed on the plane fitted to
the three anchors.  The pose built here is a symbolic combination of the
anchor poses; no claim depends on its exact value. -/
def createGroupInPlane (t m b : Nat) (st : St) : Nat × St :=
  let (g, st1) := createNode st
  let pt := st1.sc.poseF t
  let pm := st1.sc.poseF m
  let pb := st1.sc.poseF b
  (g, { st1 with sc := setPose g ⟨addV pt.pos (addV pm.pos pb.pos), pt.rot + pm.rot + pb.rot⟩ st1.sc })

/-- Embedding of `OrientJoint._get_aim_up_at`, branch for branch: 1 is the
parent-rotation frame, 2 the child position, 3 the parent position, 4 the
triangle plane (which reads `self.orient_values` and warns when an anchor
is missing), 5 the second child (which reads the never-assigned
`self.child2` attribute, an AttributeError when fewer than two children
were found, because `__init__` misspells it as `chidl2`); every other index
falls through returning None. -/
def get_aim_up_at (i : Int) (st : St) : Res (Option Nat) × St :=
  if i = 1 then
    let st1 := { st with oj := { st.oj with up_space_type := "objectrotation" } }
    liftOpt (get_local_up_group st1.oj.parent st1)
  else if i = 2 then
    match get_position_group st.oj.child st with
    | (.err, s) => (.err, s)
    | (.ok g, s) => (.ok (some g), { s with oj := { s.oj with up_space_type := "object" } })
  else if i = 3 then
    match get_position_group st.oj.parent st with
    | (.err, s) => (.err, s)
    | (.ok g, s) => (.ok (some g), { s with oj := { s.oj with up_space_type := "object" } })
  else if i = 4 then
    match st.oj.orient_values with
    | none => (.err, st)
    | some v =>
      match get_triangle_group v.triTop st with
      | (.err, s) => (.err, s)
      | (.ok top, s1) =>
        match get_triangle_group v.triMid s1 with
        | (.err, s) => (.err, s)
        | (.ok mid, s2) =>
          match get_triangle_group v.triBtm s2 with
          | (.err, s) => (.err, s)
          | (.ok btm, s3) =>
            match top, mid, btm with
            | some t, some m, some b =>
              let (g, s4) := createGroupInPlane t m b s3
              let s5 := moveRel (0, 10, 0) g s4
              let s6 := pushDeleteLater g s5
              (.ok (some g), { s6 with oj := { s6.oj with up_space_type := "object" } })
            | _, _, _ => (.ok none, pushWarn .triangle s3)
  else if i = 5 then
    let st1 := { st with oj := { st.oj with up_space_type := "object" } }
    match st1.oj.child2 with
    | none => (.err, st1)
    | some c2 =>
      match c2 with
      | some c =>
        if st1.sc.nodes.contains c then
          match get_position_group (some c) st1 with
          | (.err, s) => (.err, s)
          | (.ok g, s) => (.ok (some g), s)
        else (.ok none, pushWarn .noChild2 st1)
      | none => (.ok none, pushWarn .noChild2 st1)
  else (.ok none, st)

/-- Modelled from the spec: `OrientJoint._freeze` detaches the children,
bakes the joint's rotation into its orient channel and reattaches them; per
the spec the world transforms of the joint and of its children are
numerically unchanged by this step, so the embedding records the event and
leaves all world poses untouched. -/
def freezeStep (st : St) : St := pushEv (.freeze st.oj.joint) st

/-- Embedding of `OrientJoint._get_relatives`: first parent and grand
parent, then first child, second child (assigned only when at least two
children exist), and first child of the first child. -/
def get_relatives (sc : Scene) (oj : OJ) : OJ :=
  let oj1 :=
    match lookupPar sc oj.joint with
    | none => oj
    | some p =>
      let oja := { oj with parent := some p }
      match lookupPar sc p with
      | none => oja
      | some gp => { oja with grand_parent := some gp }
  match childrenOf sc oj.joint with
  | [] => oj1
  | c :: rest =>
    let oj2 := { oj1 with child := some c }
    let oj3 :=
      match rest with
      | [] => oj2
      | r :: _ => { oj2 with child2 := some (some r) }
    match childrenOf sc c with
    | [] => oj3
    | gc :: _ => { oj3 with grand_child := some gc }

/-- Targets pinned by `OrientJoint._pin`: per its doc string and the spec,
the pin holds the joint's parent and children fixed in world space. -/
def pinTargets (sc : Scene) (j : Nat) : List Nat :=
  (match lookupPar sc j with
   | some p => [p]
   | none => []) ++ childrenOf sc j

/-- Creates one pin helper node for a target and records both the constraint
and the helper in the deletion list. -/
def pinOne (t : Nat) (st : St) : St :=
  let (h, st1) := createNode st
  pushDeleteLater h
    { st1 with sc := { st1.sc with pins := st1.sc.pins ++ [(h, t)] } }

/-- Modelled from the spec: `OrientJoint._pin` uses `transform.PinTransform`
from the missing transform module; per its doc string in joint.py it pins
the joint so its children and parent do not move while the joint is
transformed, and the pin helper nodes are appended to the deletion list. -/
def pinStep (st : St) : St :=
  pushEv (.pin st.oj.joint)
    ((pinTargets st.sc st.oj.joint).foldl (fun s t => pinOne t s) st)

/-- Embedding of the rotate-axis zeroing loop in `OrientJoint.run`: the
three setAttr calls sit in a try block, so locked channels produce only a
warning; otherwise zeroing the rotate axis re-orients the joint's frame,
an abstract effect `effR` applied to the affected subtree. -/
def zero_rotate_axis (effR : Pose → Pose) (st : St) : St :=
  if st.sc.locked.contains st.oj.joint then pushWarn .rotAxis st
  else pushEv (.zeroRA st.oj.joint) { st with sc := applySubtree effR st.oj.joint st.sc }

/-- Embedding of `OrientJointAttributes._create_attributes` as it mutates
the node: each attribute object creation adds the attribute with its
constructor value when it does not yet exist.  The source creates the
aimUpAt enum object but then calls `aim_at_attr.create` a second time where
`aim_up_attr.create` was evidently intended (line 337), so no aimUpAt
attribute is created here. -/
def createAttrIfMissing (j : Nat) (a : String) (v : Int) (sc : Scene) : Scene :=
  if hasAttrB sc j a then sc else setAttr sc j a v

def createAttrs (j : Nat) (sc : Scene) : Scene :=
  createAttrIfMissing j "active" 1
    (createAttrIfMissing j "triangleBottom" 3
      (createAttrIfMissing j "triangleMid" 2
        (createAttrIfMissing j "triangleTop" 1
          (createAttrIfMissing j "aimAt" 3
            (createAttrIfMissing j "aimAt" 3
              (createAttrIfMissing j "worldUpAxis" 1
                (createAttrIfMissing j "upAxis" 1
                  (createAttrIfMissing j "aimAxis" 0
                    (createAttrIfMissing j "ORIENT_INFO" 0 sc)))))))))

/-- Modelled from the spec: `Attribute.set_value` from the missing attribute
module writes the typed property through the host attribute store, which
the spec exposes as an unconditional `setAttr(node, name, value, type)`.
`set_default_values` writes every attribute object's constructor default in
list order; this is the only write that brings `aimUpAt` into existence. -/
def set_default_values (j : Nat) (sc : Scene) : Scene :=
  let sc1 := setAttr sc j "aimAxis" 0
  let sc2 := setAttr sc1 j "upAxis" 1
  let sc3 := setAttr sc2 j "worldUpAxis" 1
  let sc4 := setAttr sc3 j "aimAt" 3
  let sc5 := setAttr sc4 j "aimUpAt" 0
  let sc6 := setAttr sc5 j "triangleTop" 1
  let sc7 := setAttr sc6 j "triangleMid" 2
  let sc8 := setAttr sc7 j "triangleBottom" 3
  setAttr sc8 j "active" 1

/-- Embedding of `OrientJointAttributes.add_orient_attributes` for a single
joint node: construct the attribute set, then write all defaults. -/
def add_orient_attributes (j : Nat) (sc : Scene) : Scene :=
  set_default_values j (createAttrs j sc)

/-- Modelled from the spec: `Attribute.get_value` reads the node attribute
through the host store and falls back to the attribute object's constructor
value when the node attribute is absent (relevant only for `aimUpAt`, which
`_create_attributes` fails to create). -/
def getAttrD (sc : Scene) (j : Nat) (a : String) (d : Int) : Int :=
  (getAttr sc j a).getD d

def readVals (sc : Scene) (j : Nat) : Vals :=
  { aimAxis := getAttrD sc j "aimAxis" 0
    upAxis := getAttrD sc j "upAxis" 1
    worldUpAxis := getAttrD sc j "worldUpAxis" 1
    aimAt := getAttrD sc j "aimAt" 3
    aimUpAt := getAttrD sc j "aimUpAt" 0
    triTop := getAttrD sc j "triangleTop" 1
    triMid := getAttrD sc j "triangleMid" 2
    triBtm := getAttrD sc j "triangleBottom" 3
    active := getAttrD sc j "active" 1 }

/-- Embedding of `OrientJoint._get_values`: warns and returns None when the
node has no ORIENT_INFO marker; otherwise constructing
`OrientJointAttributes` re-creates any missing attributes and the values
are read back. -/
def get_values (st : St) : Option Vals × St :=
  if hasAttrB st.sc st.oj.joint "ORIENT_INFO" then
    let sc1 := createAttrs st.oj.joint st.sc
    let v := readVals sc1 st.oj.joint
    (some v, { st with sc := sc1, oj := { st.oj with orient_values := some v } })
  else
    (none, pushWarn .noOrientAttrs { st with oj := { st.oj with orient_values := none } })

/-- Embedding of `OrientJoint._create_aim`: applies the aim constraint to
the joint (with the up object exactly when `self.aim_up_at` is truthy),
records the constraint node for deletion.  A target that is not a node
makes `maya.cmds.aimConstraint` raise. -/
def create_aim (effA : Pose → Pose) (st : St) : Res Unit × St :=
  match st.oj.aim_at with
  | .node (some t) =>
    let up : Option Nat :=
      match st.oj.aim_up_at with
      | .node (some u) => some u
      | _ => none
    let st1 := pushEv (.aim t up st.oj.aim_vector st.oj.up_vector st.oj.world_up_vector
      st.oj.up_space_type) st
    let st2 := { st1 with sc := applySubtree effA st1.oj.joint st1.sc }
    let (cns, st3) := createNode st2
    (.ok (), pushDeleteLater cns st3)
  | _ => (.err, st)

/-- Embedding of `OrientJoint._cleanup`: deletes every node in the deletion
list; deleting a pin helper removes its constraint.  The Python list itself
is not cleared. -/
def cleanup (st : St) : St :=
  let ids := st.oj.delete_later
  pushEv (.del ids)
    { st with sc := { st.sc with
        nodes := st.sc.nodes.filter (fun n => !ids.contains n),
        pins := st.sc.pins.filter (fun e => !ids.contains e.1) } }

/-- Embedding of `OrientJoint.__init__`: default vectors, aim indices 3 and
0, no relatives yet (note the misspelled `chidl2`), then `_get_relatives`.
The source assigns `world_up_vector` twice, to `[0, 1, 0]` and then to
`get_vector_from_axis(1)`, which are equal. -/
def mkOJ (sc : Scene) (j : Nat) : OJ :=
  get_relatives sc
    { joint := j
      orient_values := none
      aim_vector := (1, 0, 0)
      up_vector := (0, 1, 0)
      world_up_vector := get_vector_from_axis 1
      aim_at := .idx 3
      aim_up_at := .idx 0
      child := none
      chidl2 := none
      child2 := none
      grand_child := none
      parent := none
      grand_parent := none
      delete_later := []
      up_space_type := "vector" }

def mkSt (sc : Scene) (j : Nat) : St := { sc := sc, oj := mkOJ sc j, tr := [] }

def setVectorsFromVals (v : Vals) (st : St) : St :=
  { st with oj := { st.oj with
      aim_vector := get_vector_from_axis v.aimAxis
      up_vector := get_vector_from_axis v.upAxis
      world_up_vector := get_vector_from_axis v.worldUpAxis } }

/-- The assignment `self.aim_at = <resolved node>`. -/
def setAimAtNode (a : Option Nat) (st : St) : St :=
  { st with oj := { st.oj with aim_at := .node a } }

/-- The assignment `self.aim_up_at = <resolved node>`. -/
def setAimUpAtNode (u : Option Nat) (st : St) : St :=
  { st with oj := { st.oj with aim_up_at := .node u } }

/-- Embedding of the orient-values branch of `OrientJoint.run`: vectors from
the stored axes, then aim target, then up target. -/
def resolveFromVals (v : Vals) (st : St) : Res Unit × St :=
  match get_aim_at v.aimAt (setVectorsFromVals v st) with
  | (.err, s) => (.err, s)
  | (.ok a, s) =>
    match get_aim_up_at v.aimUpAt (setAimAtNode a s) with
    | (.err, s2) => (.err, s2)
    | (.ok u, s2) => (.ok (), setAimUpAtNode u s2)

/-- The statement `if type(self.aim_at) == int: self.aim_at = self._get_aim_at(...)`
of the no-orient-values branch. -/
def resolveAim (st : St) : Res Unit × St :=
  match st.oj.aim_at with
  | .idx i =>
    match get_aim_at i st with
    | (.err, s) => (.err, s)
    | (.ok a, s) => (.ok (), setAimAtNode a s)
  | .node _ => (.ok (), st)

/-- The statement `if type(self.aim_up_at) == int: self.aim_up_at = ...` of
the no-orient-values branch. -/
def resolveUp (st : St) : Res Unit × St :=
  match st.oj.aim_up_at with
  | .idx i =>
    match get_aim_up_at i st with
    | (.err, s2) => (.err, s2)
    | (.ok u, s2) => (.ok (), setAimUpAtNode u s2)
  | .node _ => (.ok (), st)

/-- Embedding of the no-orient-values branch of `OrientJoint.run`: each of
`aim_at` and `aim_up_at` is resolved when it still holds an integer. -/
def resolveNoVals (st : St) : Res Unit × St :=
  match resolveAim st with
  | (.err, s) => (.err, s)
  | (.ok _, s) => resolveUp s

/-- Truth of the skip test at the top of `OrientJoint.run`: the `active`
attribute exists and its value is falsy. -/
def activeSkip (sc : Scene) (j : Nat) : Bool :=
  hasAttrB sc j "active" && (getAttr sc j "active" == some 0)

/-- The `self._get_relatives()` call inside `run`, refreshing the instance
fields from the scene. -/
def relativesStep (st : St) : St :=
  { st with oj := get_relatives st.sc st.oj }

/-- The branch of `run` on `self.orient_values`, which `get_values` has just
stored. -/
def resolveTargets (st : St) : Res Unit × St :=
  match st.oj.orient_values with
  | some v => resolveFromVals v st
  | none => resolveNoVals st

/-- The tail of `run`: aim constraint, cleanup, final freeze.  There is no
exception handler, so an error from target resolution or from the
constraint propagates without reaching `_cleanup`. -/
def afterResolve (effA : Pose → Pose) (x : Res Unit × St) : Res Unit × St :=
  match x with
  | (.err, s) => (.err, s)
  | (.ok _, s) =>
    match create_aim effA s with
    | (.err, s2) => (.err, s2)
    | (.ok _, s2) => (.ok (), freezeStep (cleanup s2))

/-- Embedding of `OrientJoint.run` after the active check: freeze, refresh
relatives, pin, zero the rotate axes, read the orient values, resolve the
targets, constrain, clean up, freeze again. -/
def runActive (effR effA : Pose → Pose) (st : St) : Res Unit × St :=
  afterResolve effA (resolveTargets
    (get_values (zero_rotate_axis effR (pinStep (relativesStep (freezeStep st))))).2)

/-- Embedding of `OrientJoint.run`: an existing falsy `active` attribute
logs a warning and returns immediately; otherwise the full solve runs. -/
def run (effR effA : Pose → Pose) (st : St) : Res Unit × St :=
  if activeSkip st.sc st.oj.joint then (.ok (), pushWarn .inactive st)
  else runActive effR effA st

/-! ### Embedding of the batch driver

`OrientJointAttributes.orient_with_attributes` walks a list of nodes.  For
each node it lists the children first; a node with no `ORIENT_INFO` is
skipped itself and the walk recurses into its children (under `force` the
defaults are instead added to joint/transform nodes and control falls
through to the orient step); a node carrying the attributes whose type is
`joint` or `transform` gets `OrientJoint(...).run()` — called with no
exception handler — and only then is recursed into; a node carrying the
attributes but of another type blocks its whole subtree.  The walk is
embedded directly over the scene and calls the embedded `run`, so an error
raised by `run` propagates through every recursion level and aborts the
traversal exactly as in the source.  The node-type test
`maya.cmds.nodeType(obj) in ['joint', 'transform']` is a predicate
parameter, the scene not recording node types.  `fuel` bounds the
recursion depth (an artifact standing for the termination of the source's
recursion on a finite hierarchy: exhausted fuel is reported as a failure
and the theorems supply fuel exceeding the depth).  Besides the result and
the final scene, the embedding returns the nodes the loop body processed
and the nodes on which `run` was invoked, both in visit order. -/
def orient_with_attributes (effR effA : Pose → Pose) (typeOk : Nat → Bool)
    (force : Bool) : Nat → Scene → List Nat → Res Unit × Scene × List Nat × List Nat
  | 0, sc, _ => (.err, sc, [], [])
  | _ + 1, sc, [] => (.ok (), sc, [], [])
  | fuel + 1, sc, o :: rest =>
    let relatives := childrenOf sc o
    if !(hasAttrB sc o "ORIENT_INFO") && !force then
      match (if relatives.isEmpty
             then ((.ok (), sc, [], []) : Res Unit × Scene × List Nat × List Nat)
             else orient_with_attributes effR effA typeOk force fuel sc relatives) with
      | (.err, s1, v1, r1) => (.err, s1, o :: v1, r1)
      | (.ok _, s1, v1, r1) =>
        match orient_with_attributes effR effA typeOk force fuel s1 rest with
        | (res2, s2, v2, r2) => (res2, s2, o :: (v1 ++ v2), r1 ++ r2)
    else
      let sc0 := if !(hasAttrB sc o "ORIENT_INFO") && typeOk o then
          add_orient_attributes o sc else sc
      if typeOk o then
        match run effR effA (mkSt sc0 o) with
        | (.err, st1) => (.err, st1.sc, [o], [o])
        | (.ok _, st1) =>
          match (if relatives.isEmpty
                 then ((.ok (), st1.sc, [], []) : Res Unit × Scene × List Nat × List Nat)
                 else orient_with_attributes effR effA typeOk force fuel st1.sc relatives) with
          | (.err, s1, v1, r1) => (.err, s1, o :: v1, o :: r1)
          | (.ok _, s1, v1, r1) =>
            match orient_with_attributes effR effA typeOk force fuel s1 rest with
            | (res2, s2, v2, r2) => (res2, s2, o :: (v1 ++ v2), o :: (r1 ++ r2))
      else
        match orient_with_attributes effR effA typeOk force fuel sc0 rest with
        | (res2, s2, v2, r2) => (res2, s2, o :: v2, r2)

/-! ### Concrete scenes used by the witnesses and counterexamples -/

/-- Distinctive world poses for the demo nodes. -/
def demoPose (n : Nat) : Pose :=
  ⟨(Int.ofNat n + 1, 2 * Int.ofNat n + 1, 0), Int.ofNat n + 7⟩

/-- A five-node chain: 0 is the parent of 1, 1 has the children 2 and 4,
and 2 has the child 3 — so relative to joint 1, node 0 is the parent,
2 the child, 4 the second child and 3 the grand child. -/
def demoScene : Scene :=
  { nodes := [0, 1, 2, 3, 4]
    par := [(1, 0), (2, 1), (4, 1), (3, 2)]
    poseF := demoPose
    attrs := []
    locked := []
    pins := []
    nextId := 5 }

/-- The demo scene with attributes installed. -/
def demoWith (attrs : List (Nat × String × Int)) : Scene :=
  { demoScene with attrs := attrs }

/-- A linear five-node chain 0 → 1 → 2 → 3 → 4: relative to joint 2,
node 0 is the grand parent, 1 the parent, 3 the child and 4 the grand
child. -/
def demoChain : Scene :=
  { nodes := [0, 1, 2, 3, 4]
    par := [(1, 0), (2, 1), (3, 2), (4, 3)]
    poseF := demoPose
    attrs := []
    locked := []
    pins := []
    nextId := 5 }

/-- The chain scene with attributes installed. -/
def demoChainWith (attrs : List (Nat × String × Int)) : Scene :=
  { demoChain with attrs := attrs }

/-- A nontrivial pose effect used by the witnesses: the theorems hold for
every effect, the witnesses instantiate this one. -/
def effDemo : Pose → Pose :=
  fun p => ⟨addV p.pos (100, 0, 0), p.rot + 1000⟩

/-- A one-node scene holding a fresh joint with no attributes. -/
def scSingle : Scene :=
  { nodes := [0], par := [], poseF := demoPose, attrs := [], locked := [], pins := []
    nextId := 1 }

/-- Three nodes: joints 0 and 1 are top-level siblings, both carrying the
attribute set and active; node 2 is the child of 1.  Joint 0 is a leaf, so
its default `aimAt = child` resolution raises inside `run`. -/
def scAbort : Scene :=
  { nodes := [0, 1, 2], par := [(2, 1)], poseF := demoPose,
    attrs := [(0, "ORIENT_INFO", 1), (0, "active", 1),
              (1, "ORIENT_INFO", 1), (1, "active", 1)],
    locked := [], pins := [], nextId := 3 }

/-- Whether an event is not a warning. -/
def evNotWarn : Ev → Bool
  | .warn _ => false
  | _ => true

/-- Whether a trace contains no warning at all. -/
def noWarnB (l : List Ev) : Bool := l.all evNotWarn

/-- The enum labels of the persisted `aimAt` attribute (source line 330). -/
def aimAtEnumNames : List String :=
  ["worldX", "worldY", "worldZ", "child", "parent", "localParent"]

/-- The enum labels of the persisted `aimUpAt` attribute (source line 336). -/
def aimUpAtEnumNames : List String :=
  ["world", "parentRotate", "childPosition", "trianglePlane", "2ndChildPosition"]

/-! ### Preservation infrastructure

`Keep r st st'` records what a step of the solve leaves untouched: the
wrapped joint, the parent relation, the locked set, monotone id counter,
the world pose of any pre-existing node `r`, monotone pins, and monotone
trace and deletion list.  Every step of `run` up to the cleanup satisfies
it (the pose clause of the two rotating steps requires the shield
argument below). -/

structure Keep (r : Nat) (st st' : St) : Prop where
  joint_eq : st'.oj.joint = st.oj.joint
  par_eq : st'.sc.par = st.sc.par
  locked_eq : st'.sc.locked = st.sc.locked
  nid : st.sc.nextId ≤ st'.sc.nextId
  pose : r < st.sc.nextId → st'.sc.poseF r = st.sc.poseF r
  pins_mono : ∀ t, pinnedB st.sc t = true → pinnedB st'.sc t = true
  tr_mono : ∀ e ∈ st.tr, e ∈ st'.tr
  del_mono : ∀ n ∈ st.oj.delete_later, n ∈ st'.oj.delete_later

theorem Keep.refl (r : Nat) (st : St) : Keep r st st :=
  ⟨rfl, rfl, rfl, le_refl _, fun _ => rfl, fun _ h => h, fun _ h => h, fun _ h => h⟩

theorem Keep.trans {r : Nat} {s1 s2 s3 : St} (h1 : Keep r s1 s2) (h2 : Keep r s2 s3) :
    Keep r s1 s3 :=
  ⟨h2.joint_eq.trans h1.joint_eq, h2.par_eq.trans h1.par_eq, h2.locked_eq.trans h1.locked_eq,
   le_trans h1.nid h2.nid,
   fun h => (h2.pose (lt_of_lt_of_le h h1.nid)).trans (h1.pose h),
   fun t ht => h2.pins_mono t (h1.pins_mono t ht),
   fun e he => h2.tr_mono e (h1.tr_mono e he),
   fun n hn => h2.del_mono n (h1.del_mono n hn)⟩

theorem keep_of_sc_eq {r : Nat} {st st' : St} (hsc : st'.sc = st.sc)
    (hj : st'.oj.joint = st.oj.joint)
    (hd : ∀ n ∈ st.oj.delete_later, n ∈ st'.oj.delete_later)
    (ht : ∀ e ∈ st.tr, e ∈ st'.tr) : Keep r st st' :=
  ⟨hj, by rw [hsc], by rw [hsc], by rw [hsc], fun _ => by rw [hsc], fun t h => by rwa [hsc],
   ht, hd⟩

theorem keep_pushEv {r : Nat} (e : Ev) (st : St) : Keep r st (pushEv e st) :=
  keep_of_sc_eq rfl rfl (fun _ h => h) (fun _ h => List.mem_cons_of_mem _ h)

theorem keep_pushWarn {r : Nat} (w : Warn) (st : St) : Keep r st (pushWarn w st) :=
  keep_pushEv _ _

theorem keep_pushDeleteLater {r : Nat} (n : Nat) (st : St) :
    Keep r st (pushDeleteLater n st) :=
  keep_of_sc_eq rfl rfl (fun _ h => List.mem_append_left _ h) (fun _ h => h)

theorem setPose_at_ne {g r : Nat} {p : Pose} {sc : Scene} (h : r ≠ g) :
    (setPose g p sc).poseF r = sc.poseF r := by
  simp [setPose, h]

theorem keep_createNode {r : Nat} (st : St) : Keep r st (createNode st).2 := by
  refine ⟨rfl, rfl, rfl, ?_, ?_, ?_, ?_, ?_⟩
  · simp [createNode, pushEv]
  · intro h
    simp only [createNode, pushEv]
    exact if_neg (Nat.ne_of_lt h)
  · intro t ht
    simpa [createNode, pushEv, pinnedB] using ht
  · intro e he
    simp [createNode, pushEv]
    exact Or.inr he
  · intro n hn
    simpa [createNode, pushEv] using hn

theorem createNode_fst (st : St) : (createNode st).1 = st.sc.nextId := rfl

theorem keep_get_position_group {r : Nat} (src : Option Nat) (st : St) :
    Keep r st (get_position_group src st).2 := by
  unfold get_position_group
  cases src with
  | none => exact keep_createNode st
  | some s =>
    refine ⟨rfl, rfl, rfl, Nat.le_succ _, ?_, fun _ h => h, ?_, ?_⟩
    · intro hr
      have hne : r ≠ st.sc.nextId := Nat.ne_of_lt hr
      simp [createNode, matchTR, setPose, pushEv, pushDeleteLater, hne]
    · intro e he
      simp only [createNode, matchTR, setPose, pushEv, pushDeleteLater, List.mem_cons]
      exact Or.inr he
    · intro n hn
      simp only [createNode, matchTR, setPose, pushEv, pushDeleteLater]
      exact List.mem_append_left _ hn

theorem keep_get_local_up_group {r : Nat} (src : Option Nat) (st : St) :
    Keep r st (get_local_up_group src st).2 := by
  unfold get_local_up_group
  cases src with
  | none => exact keep_createNode st
  | some s =>
    refine ⟨rfl, rfl, rfl, Nat.le_succ _, ?_, fun _ h => h, ?_, ?_⟩
    · intro hr
      have hne : r ≠ st.sc.nextId := Nat.ne_of_lt hr
      simp [createNode, matchRotation, matchTranslation, moveRel, setPose, pushEv,
        pushDeleteLater, hne]
    · intro e he
      simp only [createNode, matchRotation, matchTranslation, moveRel, setPose, pushEv,
        pushDeleteLater, List.mem_cons]
      exact Or.inr he
    · intro n hn
      simp only [createNode, matchRotation, matchTranslation, moveRel, setPose, pushEv,
        pushDeleteLater]
      exact List.mem_append_left _ hn

theorem liftOpt_snd (x : Res Nat × St) : (liftOpt x).2 = x.2 := by
  rcases x with ⟨a, s⟩
  cases a <;> rfl

theorem keep_get_triangle_group {r : Nat} (i : Int) (st : St) :
    Keep r st (get_triangle_group i st).2 := by
  unfold get_triangle_group
  cases triangle_target st.oj i with
  | none => exact Keep.refl r st
  | some t => rw [liftOpt_snd]; exact keep_get_position_group _ _

theorem keep_get_aim_at {r : Nat} (i : Int) (st : St) : Keep r st (get_aim_at i st).2 := by
  unfold get_aim_at
  by_cases h3 : i < 3
  · simp only [if_pos h3]
    split <;> [skip; split] <;> [skip; skip; split]
    all_goals
      refine ⟨rfl, rfl, rfl, Nat.le_succ _, ?_, fun _ h => h, ?_, ?_⟩
    all_goals
      first
      | (intro hr
         have hne2 : r ≠ st.sc.nextId := Nat.ne_of_lt hr
         simp [createNode, matchTranslation, moveRel, setPose, pushEv, pushDeleteLater, hne2])
      | (intro e he
         simp only [createNode, matchTranslation, moveRel, setPose, pushEv, pushDeleteLater,
           List.mem_cons]
         exact Or.inr he)
      | (intro n hn
         simp only [createNode, matchTranslation, moveRel, setPose, pushEv, pushDeleteLater]
         exact List.mem_append_left _ hn)
  · simp only [if_neg h3]
    by_cases h4 : i = 3
    · simp only [if_pos h4, liftOpt_snd]
      exact keep_get_position_group _ _
    · simp only [if_neg h4]
      by_cases h5 : i = 4
      · simp only [if_pos h5, liftOpt_snd]
        exact keep_get_position_group _ _
      · simp only [if_neg h5]
        by_cases h6 : i = 5
        · simp only [if_pos h6, liftOpt_snd]
          exact keep_get_local_up_group _ _
        · simp only [if_neg h6]
          exact Keep.refl r st

theorem keep_oj_update {r : Nat} {st st' : St} (hsc : st'.sc = st.sc)
    (hj : st'.oj.joint = st.oj.joint) (hd : st'.oj.delete_later = st.oj.delete_later)
    (ht : st'.tr = st.tr) : Keep r st st' :=
  keep_of_sc_eq hsc hj (by rw [hd]; exact fun _ h => h) (by rw [ht]; exact fun _ h => h)

theorem keep_get_aim_up_at {r : Nat} (i : Int) (st : St) :
    Keep r st (get_aim_up_at i st).2 := by
  unfold get_aim_up_at
  by_cases h1 : i = 1
  · simp only [if_pos h1, liftOpt_snd]
    exact @Keep.trans r st
      ⟨st.sc, { st.oj with up_space_type := "objectrotation" }, st.tr⟩ _
      (keep_oj_update rfl rfl rfl rfl) (keep_get_local_up_group _ _)
  · simp only [if_neg h1]
    by_cases h2 : i = 2
    · simp only [if_pos h2]
      have hk := keep_get_position_group (r := r) st.oj.child st
      rcases hm : get_position_group st.oj.child st with ⟨res, s⟩
      rw [hm] at hk
      cases res with
      | err => exact hk
      | ok g => exact hk.trans (keep_oj_update rfl rfl rfl rfl)
    · simp only [if_neg h2]
      by_cases h3 : i = 3
      · simp only [if_pos h3]
        have hk := keep_get_position_group (r := r) st.oj.parent st
        rcases hm : get_position_group st.oj.parent st with ⟨res, s⟩
        rw [hm] at hk
        cases res with
        | err => exact hk
        | ok g => exact hk.trans (keep_oj_update rfl rfl rfl rfl)
      · simp only [if_neg h3]
        by_cases h4 : i = 4
        · simp only [if_pos h4]
          cases hov : st.oj.orient_values with
          | none => exact Keep.refl r st
          | some v =>
            dsimp only
            have hk1 := keep_get_triangle_group (r := r) v.triTop st
            rcases hm1 : get_triangle_group v.triTop st with ⟨res1, s1⟩
            rw [hm1] at hk1
            cases res1 with
            | err => exact hk1
            | ok top =>
              dsimp only
              have hk2 := keep_get_triangle_group (r := r) v.triMid s1
              rcases hm2 : get_triangle_group v.triMid s1 with ⟨res2, s2⟩
              rw [hm2] at hk2
              cases res2 with
              | err => exact hk1.trans hk2
              | ok mid =>
                dsimp only
                have hk3 := keep_get_triangle_group (r := r) v.triBtm s2
                rcases hm3 : get_triangle_group v.triBtm s2 with ⟨res3, s3⟩
                rw [hm3] at hk3
                cases res3 with
                | err => exact (hk1.trans hk2).trans hk3
                | ok btm =>
                  refine (hk1.trans hk2).trans (hk3.trans ?_)
                  cases top with
                  | none =>
                    cases mid <;> cases btm <;> exact keep_pushWarn _ _
                  | some t =>
                    cases mid with
                    | none => cases btm <;> exact keep_pushWarn _ _
                    | some m =>
                      cases btm with
                      | none => exact keep_pushWarn _ _
                      | some b =>
                        refine ⟨rfl, rfl, rfl, Nat.le_succ _, ?_, fun _ h => h, ?_, ?_⟩
                        · intro hr
                          have hne2 : r ≠ s3.sc.nextId := Nat.ne_of_lt hr
                          simp [createGroupInPlane, createNode, moveRel, setPose, pushEv,
                            pushDeleteLater, hne2]
                        · intro e he
                          simp only [createGroupInPlane, createNode, moveRel, setPose, pushEv,
                            pushDeleteLater, List.mem_cons]
                          exact Or.inr he
                        · intro n hn
                          simp only [createGroupInPlane, createNode, moveRel, setPose, pushEv,
                            pushDeleteLater]
                          exact List.mem_append_left _ hn
        · simp only [if_neg h4]
          by_cases h5 : i = 5
          · simp only [if_pos h5]
            obtain ⟨sc0, oj0, tr0⟩ := st
            dsimp only
            set R : St := ⟨sc0, { oj0 with up_space_type := "object" }, tr0⟩ with hR
            have hbase : Keep r ⟨sc0, oj0, tr0⟩ R := by
              rw [hR]; exact keep_oj_update rfl rfl rfl rfl
            cases hc2 : oj0.child2 with
            | none => exact hbase
            | some c2 =>
              dsimp only
              cases c2 with
              | none => exact hbase.trans (keep_pushWarn _ _)
              | some c =>
                dsimp only
                split
                · have hk := keep_get_position_group (r := r) (some c) R
                  rcases hm : get_position_group (some c) R with ⟨res, s⟩
                  rw [hm] at hk
                  cases res with
                  | err => exact hbase.trans hk
                  | ok g => exact hbase.trans hk
                · exact hbase.trans (keep_pushWarn _ _)
          · simp only [if_neg h5]
            exact Keep.refl r st

theorem keep_pinOne {r : Nat} (t : Nat) (st : St) : Keep r st (pinOne t st) := by
  refine ⟨rfl, rfl, rfl, Nat.le_succ _, ?_, ?_, ?_, ?_⟩
  · intro hr
    have hne : r ≠ st.sc.nextId := Nat.ne_of_lt hr
    simp [pinOne, createNode, pushEv, pushDeleteLater, hne]
  · intro u hu
    simp only [pinOne, createNode, pushEv, pushDeleteLater, pinnedB, List.any_append] at hu ⊢
    simp [hu]
  · intro e he
    simp only [pinOne, createNode, pushEv, pushDeleteLater, List.mem_cons]
    exact Or.inr he
  · intro n hn
    simp only [pinOne, createNode, pushEv, pushDeleteLater]
    exact List.mem_append_left _ hn

theorem pinnedB_pinOne_target (t : Nat) (st : St) : pinnedB (pinOne t st).sc t = true := by
  simp [pinOne, createNode, pushEv, pushDeleteLater, pinnedB, List.any_append]

theorem keep_pinFold {r : Nat} :
    ∀ (L : List Nat) (st : St), Keep r st (L.foldl (fun s t => pinOne t s) st)
  | [], st => Keep.refl r st
  | t :: ts, st => (keep_pinOne t st).trans (keep_pinFold ts (pinOne t st))

theorem pinned_pinFold :
    ∀ (L : List Nat) (st : St) (t : Nat), t ∈ L →
      pinnedB ((L.foldl (fun s u => pinOne u s) st)).sc t = true := by
  intro L
  induction L with
  | nil => intro st t h; exact absurd h (List.not_mem_nil t)
  | cons u us ih =>
    intro st t h
    rcases List.mem_cons.mp h with h1 | h2
    · subst h1
      exact (keep_pinFold (r := 0) us (pinOne t st)).pins_mono t (pinnedB_pinOne_target t st)
    · exact ih (pinOne u st) t h2

theorem keep_pinStep {r : Nat} (st : St) : Keep r st (pinStep st) :=
  (keep_pinFold _ st).trans (keep_pushEv _ _)

theorem pinned_pinStep (st : St) (t : Nat) (h : t ∈ pinTargets st.sc st.oj.joint) :
    pinnedB (pinStep st).sc t = true :=
  pinned_pinFold _ st t h

theorem createAttrIfMissing_par (j : Nat) (a : String) (v : Int) (sc : Scene) :
    (createAttrIfMissing j a v sc).par = sc.par := by
  unfold createAttrIfMissing setAttr; split <;> rfl

theorem createAttrIfMissing_poseF (j : Nat) (a : String) (v : Int) (sc : Scene) :
    (createAttrIfMissing j a v sc).poseF = sc.poseF := by
  unfold createAttrIfMissing setAttr; split <;> rfl

theorem createAttrIfMissing_locked (j : Nat) (a : String) (v : Int) (sc : Scene) :
    (createAttrIfMissing j a v sc).locked = sc.locked := by
  unfold createAttrIfMissing setAttr; split <;> rfl

theorem createAttrIfMissing_pins (j : Nat) (a : String) (v : Int) (sc : Scene) :
    (createAttrIfMissing j a v sc).pins = sc.pins := by
  unfold createAttrIfMissing setAttr; split <;> rfl

theorem createAttrIfMissing_nextId (j : Nat) (a : String) (v : Int) (sc : Scene) :
    (createAttrIfMissing j a v sc).nextId = sc.nextId := by
  unfold createAttrIfMissing setAttr; split <;> rfl

theorem createAttrIfMissing_nodes (j : Nat) (a : String) (v : Int) (sc : Scene) :
    (createAttrIfMissing j a v sc).nodes = sc.nodes := by
  unfold createAttrIfMissing setAttr; split <;> rfl

theorem createAttrs_par (j : Nat) (sc : Scene) : (createAttrs j sc).par = sc.par := by
  unfold createAttrs
  simp only [createAttrIfMissing_par]

theorem createAttrs_poseF (j : Nat) (sc : Scene) : (createAttrs j sc).poseF = sc.poseF := by
  unfold createAttrs
  simp only [createAttrIfMissing_poseF]

theorem createAttrs_locked (j : Nat) (sc : Scene) : (createAttrs j sc).locked = sc.locked := by
  unfold createAttrs
  simp only [createAttrIfMissing_locked]

theorem createAttrs_pins (j : Nat) (sc : Scene) : (createAttrs j sc).pins = sc.pins := by
  unfold createAttrs
  simp only [createAttrIfMissing_pins]

theorem createAttrs_nextId (j : Nat) (sc : Scene) : (createAttrs j sc).nextId = sc.nextId := by
  unfold createAttrs
  simp only [createAttrIfMissing_nextId]

theorem createAttrs_nodes (j : Nat) (sc : Scene) : (createAttrs j sc).nodes = sc.nodes := by
  unfold createAttrs
  simp only [createAttrIfMissing_nodes]

theorem keep_fields {r : Nat} {st st' : St}
    (hj : st'.oj.joint = st.oj.joint)
    (hpar : st'.sc.par = st.sc.par)
    (hlocked : st'.sc.locked = st.sc.locked)
    (hnid : st.sc.nextId ≤ st'.sc.nextId)
    (hpose : r < st.sc.nextId → st'.sc.poseF r = st.sc.poseF r)
    (hpins : st'.sc.pins = st.sc.pins)
    (htr : ∀ e ∈ st.tr, e ∈ st'.tr)
    (hdel : ∀ n ∈ st.oj.delete_later, n ∈ st'.oj.delete_later) : Keep r st st' :=
  ⟨hj, hpar, hlocked, hnid, hpose, fun t ht => by rwa [pinnedB, hpins], htr, hdel⟩

theorem keep_get_values {r : Nat} (st : St) : Keep r st (get_values st).2 := by
  unfold get_values
  split
  · refine keep_fields ?hja ?hpara ?hlockeda ?hnida ?hposea ?hpinsa
      (fun _ h => h) (fun _ h => h)
    case hja => dsimp only
    case hpara => dsimp only; exact createAttrs_par _ _
    case hlockeda => dsimp only; exact createAttrs_locked _ _
    case hnida => dsimp only; exact le_of_eq (createAttrs_nextId _ _).symm
    case hposea => dsimp only; intro _; exact congrFun (createAttrs_poseF _ _) r
    case hpinsa => dsimp only; exact createAttrs_pins _ _
  · exact keep_of_sc_eq rfl rfl (fun _ h => h) (fun _ h => List.mem_cons_of_mem _ h)

theorem applySubtree_poseF {eff : Pose → Pose} {j r : Nat} {sc : Scene}
    (h : affectedB sc j r = false) : (applySubtree eff j sc).poseF r = sc.poseF r := by
  simp [applySubtree, h]

theorem applySubtree_nextId (eff : Pose → Pose) (j : Nat) (sc : Scene) :
    (applySubtree eff j sc).nextId = sc.nextId := rfl

theorem keep_zero_rotate_axis {r : Nat} (effR : Pose → Pose) (st : St)
    (hsh : affectedB st.sc st.oj.joint r = false) :
    Keep r st (zero_rotate_axis effR st) := by
  unfold zero_rotate_axis
  split
  · exact keep_pushWarn _ _
  · refine ⟨rfl, rfl, rfl, le_refl _, ?_, fun _ h => h, ?_, fun _ h => h⟩
    · intro _
      exact applySubtree_poseF hsh
    · intro e he
      exact List.mem_cons_of_mem _ he

theorem keep_create_aim {r : Nat} (effA : Pose → Pose) (st : St)
    (hsh : affectedB st.sc st.oj.joint r = false) :
    Keep r st (create_aim effA st).2 := by
  unfold create_aim
  cases hA : st.oj.aim_at with
  | idx i => exact Keep.refl r st
  | node o =>
    cases o with
    | none => exact Keep.refl r st
    | some t =>
      dsimp only
      refine ⟨rfl, rfl, rfl, ?_, ?_, fun _ h => h, ?_, ?_⟩
      · exact Nat.le_succ _
      · intro hr
        have hne : r ≠ st.sc.nextId := Nat.ne_of_lt hr
        simp only [pushEv, createNode, pushDeleteLater, applySubtree_nextId]
        rw [if_neg hne]
        exact applySubtree_poseF hsh
      · intro e he
        simp only [pushEv, createNode, pushDeleteLater, List.mem_cons]
        exact Or.inr (Or.inr he)
      · intro n hn
        simp only [pushEv, createNode, pushDeleteLater]
        exact List.mem_append_left _ hn

theorem keep_setAimAtNode {r : Nat} (a : Option Nat) (st : St) :
    Keep r st (setAimAtNode a st) :=
  keep_oj_update rfl rfl rfl rfl

theorem keep_setAimUpAtNode {r : Nat} (u : Option Nat) (st : St) :
    Keep r st (setAimUpAtNode u st) :=
  keep_oj_update rfl rfl rfl rfl

theorem keep_resolveFromVals {r : Nat} (v : Vals) (st : St) :
    Keep r st (resolveFromVals v st).2 := by
  unfold resolveFromVals
  have h0 : Keep r st (setVectorsFromVals v st) := keep_oj_update rfl rfl rfl rfl
  have hk1 := keep_get_aim_at (r := r) v.aimAt (setVectorsFromVals v st)
  rcases hm1 : get_aim_at v.aimAt (setVectorsFromVals v st) with ⟨res1, s1⟩
  rw [hm1] at hk1
  cases res1 with
  | err => exact h0.trans hk1
  | ok a =>
    dsimp only
    have hk3 := keep_get_aim_up_at (r := r) v.aimUpAt (setAimAtNode a s1)
    rcases hm3 : get_aim_up_at v.aimUpAt (setAimAtNode a s1) with ⟨res3, s3⟩
    rw [hm3] at hk3
    cases res3 with
    | err => exact ((h0.trans hk1).trans (keep_setAimAtNode a s1)).trans hk3
    | ok u =>
      exact (((h0.trans hk1).trans (keep_setAimAtNode a s1)).trans hk3).trans
        (keep_setAimUpAtNode u s3)

theorem keep_resolveAim {r : Nat} (st : St) : Keep r st (resolveAim st).2 := by
  unfold resolveAim
  cases hA : st.oj.aim_at with
  | node o => exact Keep.refl r st
  | idx i =>
    dsimp only
    have hk1 := keep_get_aim_at (r := r) i st
    rcases hm1 : get_aim_at i st with ⟨res1, s1⟩
    rw [hm1] at hk1
    cases res1 with
    | err => exact hk1
    | ok a => exact hk1.trans (keep_setAimAtNode a s1)

theorem keep_resolveUp {r : Nat} (st : St) : Keep r st (resolveUp st).2 := by
  unfold resolveUp
  cases hU : st.oj.aim_up_at with
  | node o => exact Keep.refl r st
  | idx i =>
    dsimp only
    have hk := keep_get_aim_up_at (r := r) i st
    rcases hm : get_aim_up_at i st with ⟨res, s2⟩
    rw [hm] at hk
    cases res with
    | err => exact hk
    | ok u => exact hk.trans (keep_setAimUpAtNode u s2)

theorem keep_resolveNoVals {r : Nat} (st : St) : Keep r st (resolveNoVals st).2 := by
  unfold resolveNoVals
  have hk1 := keep_resolveAim (r := r) st
  rcases hm1 : resolveAim st with ⟨res1, s1⟩
  rw [hm1] at hk1
  cases res1 with
  | err => exact hk1
  | ok a => exact hk1.trans (keep_resolveUp s1)

theorem keep_resolveTargets {r : Nat} (st : St) : Keep r st (resolveTargets st).2 := by
  unfold resolveTargets
  cases st.oj.orient_values with
  | some v => exact keep_resolveFromVals v st
  | none => exact keep_resolveNoVals st

theorem get_relatives_joint (sc : Scene) (oj : OJ) :
    (get_relatives sc oj).joint = oj.joint := by
  unfold get_relatives
  dsimp only
  repeat' split
  all_goals rfl

theorem get_relatives_delete_later (sc : Scene) (oj : OJ) :
    (get_relatives sc oj).delete_later = oj.delete_later := by
  unfold get_relatives
  dsimp only
  repeat' split
  all_goals rfl

theorem keep_relativesStep {r : Nat} (st : St) : Keep r st (relativesStep st) :=
  keep_oj_update rfl (get_relatives_joint _ _) (get_relatives_delete_later _ _) rfl

theorem mkOJ_joint (sc : Scene) (j : Nat) : (mkOJ sc j).joint = j := by
  unfold mkOJ
  rw [get_relatives_joint]

/-! ### The shield argument

A pinned node is never affected by a rotation change of the joint, and a
node whose parent is pinned (and distinct from the joint) is shielded as
well, because `pathUpTo` lists every node strictly below the joint on the
ancestry path and `affectedB` demands that all of them be unpinned. -/

theorem pathUpTo_self_mem (sc : Scene) :
    ∀ (f j n : Nat) (l : List Nat), pathUpTo sc f j n = some l → n ∈ l := by
  intro f
  induction f with
  | zero => intro j n l h; simp [pathUpTo] at h
  | succ f ih =>
    intro j n l h
    unfold pathUpTo at h
    cases hp : lookupPar sc n with
    | none => rw [hp] at h; exact absurd h (by simp)
    | some p =>
      rw [hp] at h
      dsimp only at h
      by_cases hpj : p = j
      · rw [if_pos hpj] at h
        simp only [Option.some.injEq] at h
        subst h
        exact List.mem_singleton_self n
      · rw [if_neg hpj] at h
        cases hq : pathUpTo sc f j p with
        | none => rw [hq] at h; exact absurd h (by simp)
        | some l2 =>
          rw [hq] at h
          simp only [Option.map_some', Option.some.injEq] at h
          subst h
          exact List.mem_cons_self n l2

theorem affectedB_false_of_pinned (sc : Scene) (j r : Nat)
    (hpin : pinnedB sc r = true) (hne : r ≠ j) : affectedB sc j r = false := by
  unfold affectedB
  have hbj : (r == j) = false := beq_eq_false_iff_ne.mpr hne
  rw [hbj, Bool.false_or]
  cases hp : pathUpTo sc sc.nodes.length j r with
  | none => rfl
  | some l =>
    have hm := pathUpTo_self_mem sc _ _ _ _ hp
    apply Bool.eq_false_iff.mpr
    intro hall
    rw [List.all_eq_true] at hall
    have := hall r hm
    simp [hpin] at this

theorem affectedB_false_of_parent_pinned (sc : Scene) (j r c : Nat)
    (hpar : lookupPar sc r = some c) (hcj : c ≠ j) (hpin : pinnedB sc c = true)
    (hne : r ≠ j) : affectedB sc j r = false := by
  unfold affectedB
  have hbj : (r == j) = false := beq_eq_false_iff_ne.mpr hne
  rw [hbj, Bool.false_or]
  cases hp : pathUpTo sc sc.nodes.length j r with
  | none => rfl
  | some l =>
    cases hf : sc.nodes.length with
    | zero => rw [hf] at hp; simp [pathUpTo] at hp
    | succ f =>
      rw [hf] at hp
      unfold pathUpTo at hp
      rw [hpar] at hp
      dsimp only at hp
      rw [if_neg hcj] at hp
      cases hq : pathUpTo sc f j c with
      | none => rw [hq] at hp; exact absurd hp (by simp)
      | some l2 =>
        rw [hq] at hp
        simp only [Option.map_some', Option.some.injEq] at hp
        have hcm : c ∈ l := by
          rw [← hp]
          exact List.mem_cons_of_mem r (pathUpTo_self_mem sc _ _ _ _ hq)
        apply Bool.eq_false_iff.mpr
        intro hall
        rw [List.all_eq_true] at hall
        have := hall c hcm
        simp [hpin] at this

theorem affectedB_false_of_no_par (sc : Scene) (j n : Nat)
    (hp : lookupPar sc n = none) (hne : n ≠ j) : affectedB sc j n = false := by
  unfold affectedB
  have hbj : (n == j) = false := beq_eq_false_iff_ne.mpr hne
  rw [hbj, Bool.false_or]
  cases hf : sc.nodes.length with
  | zero => rfl
  | succ f =>
    unfold pathUpTo
    rw [hp]

/-- The relatives named by the pin invariant: the parent, every child (the
first child and the second child in particular), and the grand child. -/
def relativesOf (sc : Scene) (j : Nat) : List Nat :=
  pinTargets sc j ++
    (match childrenOf sc j with
     | [] => []
     | c :: _ =>
       match childrenOf sc c with
       | [] => []
       | gc :: _ => [gc])

theorem lookupPar_of_childrenOf {sc : Scene} {j n : Nat} (h : n ∈ childrenOf sc j) :
    lookupPar sc n = some j := by
  simp only [childrenOf, List.mem_filter] at h
  exact eq_of_beq h.2

theorem mem_nodes_of_childrenOf {sc : Scene} {j n : Nat} (h : n ∈ childrenOf sc j) :
    n ∈ sc.nodes :=
  (List.mem_filter.mp h).1

theorem lookupPar_mem_nodes {sc : Scene} {n p : Nat}
    (hwf : ∀ e ∈ sc.par, e.2 ∈ sc.nodes) (h : lookupPar sc n = some p) :
    p ∈ sc.nodes := by
  unfold lookupPar at h
  cases hf : sc.par.find? (fun e => e.1 == n) with
  | none => rw [hf] at h; exact absurd h (by simp)
  | some e =>
    rw [hf] at h
    simp only [Option.map_some', Option.some.injEq] at h
    rw [← h]
    exact hwf e (List.mem_of_find?_eq_some hf)

theorem lookupPar_eq_of_par_eq {sc1 sc2 : Scene} (h : sc1.par = sc2.par) (n : Nat) :
    lookupPar sc1 n = lookupPar sc2 n := by
  simp [lookupPar, h]

theorem edge_of_lookupPar {sc : Scene} {c p : Nat} (h : lookupPar sc c = some p) :
    (c, p) ∈ sc.par := by
  unfold lookupPar at h
  cases hf : sc.par.find? (fun e => e.1 == c) with
  | none => rw [hf] at h; exact absurd h (by simp)
  | some e =>
    rw [hf] at h
    simp only [Option.map_some', Option.some.injEq] at h
    have hpred := List.find?_some hf
    simp only [beq_iff_eq] at hpred
    have hmem := List.mem_of_find?_eq_some hf
    have : e = (c, p) := by
      cases e with
      | mk a b => simp only [Prod.mk.injEq]; exact ⟨hpred, h⟩
    rw [← this]
    exact hmem

theorem shield_of_relative (sc : Scene) (j r : Nat)
    (hself : lookupPar sc j ≠ some j)
    (h2 : ∀ e ∈ sc.par, e.2 = j → lookupPar sc j ≠ some e.1)
    (hr : r ∈ relativesOf sc j)
    (cur : Scene) (hpar : cur.par = sc.par)
    (hpins : ∀ t ∈ pinTargets sc j, pinnedB cur t = true) :
    affectedB cur j r = false := by
  rcases List.mem_append.mp hr with hpin | hgc
  · have hrj : r ≠ j := by
      rcases List.mem_append.mp hpin with hp | hc
      · cases hl : lookupPar sc j with
        | none => rw [hl] at hp; simp at hp
        | some p =>
          rw [hl] at hp
          simp only [List.mem_singleton] at hp
          subst hp
          intro hEq
          rw [hEq] at hl
          exact hself hl
      · intro hEq
        rw [hEq] at hc
        exact hself (lookupPar_of_childrenOf hc)
    exact affectedB_false_of_pinned cur j r (hpins r hpin) hrj
  · cases hcs : childrenOf sc j with
    | nil => rw [hcs] at hgc; simp at hgc
    | cons c rest =>
      rw [hcs] at hgc
      dsimp only at hgc
      cases hgs : childrenOf sc c with
      | nil => rw [hgs] at hgc; simp at hgc
      | cons gc rest2 =>
        rw [hgs] at hgc
        simp only [List.mem_singleton] at hgc
        subst hgc
        have hc_mem : c ∈ childrenOf sc j := by rw [hcs]; exact List.mem_cons_self c rest
        have hgc_mem : r ∈ childrenOf sc c := by rw [hgs]; exact List.mem_cons_self r rest2
        have hpc : lookupPar sc c = some j := lookupPar_of_childrenOf hc_mem
        have hpr : lookupPar sc r = some c := lookupPar_of_childrenOf hgc_mem
        have hcj : c ≠ j := by
          intro hEq
          rw [hEq] at hpc
          exact hself hpc
        have hrj : r ≠ j := by
          intro hEq
          rw [hEq] at hpr
          exact (h2 (c, j) (edge_of_lookupPar hpc) rfl) hpr
        have hcur_pr : lookupPar cur r = some c := by
          rw [lookupPar_eq_of_par_eq hpar]
          exact hpr
        have hpinc : pinnedB cur c = true :=
          hpins c (List.mem_append_right _ hc_mem)
        exact affectedB_false_of_parent_pinned cur j r c hcur_pr hcj hpinc hrj

theorem afterResolve_pose {r : Nat} (effA : Pose → Pose) (x : Res Unit × St)
    (hsh : affectedB x.2.sc x.2.oj.joint r = false) (hrb : r < x.2.sc.nextId) :
    (afterResolve effA x).2.sc.poseF r = x.2.sc.poseF r := by
  rcases x with ⟨res, s⟩
  cases res with
  | err => rfl
  | ok a =>
    unfold afterResolve
    dsimp only
    have hk := keep_create_aim (r := r) effA s hsh
    rcases hc : create_aim effA s with ⟨res2, s2⟩
    rw [hc] at hk
    cases res2 with
    | err => exact hk.pose hrb
    | ok b => exact hk.pose hrb

/-- C1.  For every joint and every configuration, running the solve leaves
the world pose of each relative (parent, any child — in particular the
first and second child — and the grand child) exactly where it was, for
every possible pose effect of the rotate-axis zeroing and of the aim
constraint.  The scene hypotheses say that node ids are below the fresh-id
counter, that parents are scene nodes, and that the joint is not on a
one- or two-step parent cycle. -/
theorem orient_run_preserves_relatives
    (sc : Scene) (j r : Nat) (effR effA : Pose → Pose)
    (hwf : ∀ n ∈ sc.nodes, n < sc.nextId)
    (hparwf : ∀ e ∈ sc.par, e.2 ∈ sc.nodes)
    (hself : lookupPar sc j ≠ some j)
    (h2 : ∀ e ∈ sc.par, e.2 = j → lookupPar sc j ≠ some e.1)
    (hr : r ∈ relativesOf sc j) :
    ((run effR effA (mkSt sc j)).2).sc.poseF r = sc.poseF r := by
  have hrn : r ∈ sc.nodes := by
    rcases List.mem_append.mp hr with hpin | hgc
    · rcases List.mem_append.mp hpin with hp | hc
      · cases hl : lookupPar sc j with
        | none => rw [hl] at hp; simp at hp
        | some p =>
          rw [hl] at hp
          simp only [List.mem_singleton] at hp
          subst hp
          exact lookupPar_mem_nodes hparwf hl
      · exact mem_nodes_of_childrenOf hc
    · cases hcs : childrenOf sc j with
      | nil => rw [hcs] at hgc; simp at hgc
      | cons c rest =>
        rw [hcs] at hgc
        dsimp only at hgc
        cases hgs : childrenOf sc c with
        | nil => rw [hgs] at hgc; simp at hgc
        | cons gc rest2 =>
          rw [hgs] at hgc
          simp only [List.mem_singleton] at hgc
          subst hgc
          refine @mem_nodes_of_childrenOf sc c _ ?_
          rw [hgs]
          exact List.mem_cons_self _ _
  have hrb : r < sc.nextId := hwf r hrn
  unfold run
  split
  · rfl
  · unfold runActive
    set st0 : St := mkSt sc j with hst0
    set st1 : St := freezeStep st0 with hst1
    set st2 : St := relativesStep st1 with hst2
    set st3 : St := pinStep st2 with hst3
    set st4 : St := zero_rotate_axis effR st3 with hst4
    set st5 : St := (get_values st4).2 with hst5
    have hj0 : st0.oj.joint = j := by rw [hst0]; exact mkOJ_joint sc j
    have K01 : Keep r st0 st1 := by rw [hst1]; exact keep_pushEv _ _
    have K12 : Keep r st1 st2 := by rw [hst2]; exact keep_relativesStep _
    have K23 : Keep r st2 st3 := by rw [hst3]; exact keep_pinStep _
    have hjoint2 : st2.oj.joint = j := by rw [K12.joint_eq, K01.joint_eq]; exact hj0
    have hjoint3 : st3.oj.joint = j := by rw [K23.joint_eq]; exact hjoint2
    have hsc2 : st2.sc = sc := by rw [hst2, hst1, hst0]; rfl
    have hpins3 : ∀ t ∈ pinTargets sc j, pinnedB st3.sc t = true := by
      intro t ht
      have ht2 : t ∈ pinTargets st2.sc st2.oj.joint := by rw [hsc2, hjoint2]; exact ht
      rw [hst3]
      exact pinned_pinStep st2 t ht2
    have K03 := (K01.trans K12).trans K23
    have hpar0 : st0.sc.par = sc.par := by rw [hst0]; rfl
    have hpar3 : st3.sc.par = sc.par := K03.par_eq.trans hpar0
    have hsh3 : affectedB st3.sc st3.oj.joint r = false := by
      rw [hjoint3]
      exact shield_of_relative sc j r hself h2 hr st3.sc hpar3 hpins3
    have K34 : Keep r st3 st4 := by rw [hst4]; exact keep_zero_rotate_axis effR st3 hsh3
    have K45 : Keep r st4 st5 := by rw [hst5]; exact keep_get_values st4
    have K05 := (K03.trans K34).trans K45
    have K56 : Keep r st5 (resolveTargets st5).2 := keep_resolveTargets st5
    have K06 := K05.trans K56
    have hjoint6 : (resolveTargets st5).2.oj.joint = j := by rw [K06.joint_eq]; exact hj0
    have hpar6 : (resolveTargets st5).2.sc.par = sc.par := K06.par_eq.trans hpar0
    have hpins6 : ∀ t ∈ pinTargets sc j, pinnedB (resolveTargets st5).2.sc t = true := by
      intro t ht
      exact ((K34.trans K45).trans K56).pins_mono t (hpins3 t ht)
    have hsh6 : affectedB (resolveTargets st5).2.sc (resolveTargets st5).2.oj.joint r
        = false := by
      rw [hjoint6]
      exact shield_of_relative sc j r hself h2 hr _ hpar6 hpins6
    have hrb0 : r < st0.sc.nextId := by rw [hst0]; exact hrb
    have hrb6 : r < (resolveTargets st5).2.sc.nextId := lt_of_lt_of_le hrb0 K06.nid
    have hfin := afterResolve_pose effA (resolveTargets st5) hsh6 hrb6
    rw [hfin, K06.pose hrb0, hst0]
    rfl

/-! ### Attribute-store computation lemmas -/

theorem getAttr_setAttr (sc : Scene) (n : Nat) (a : String) (v : Int) (n' : Nat)
    (a' : String) :
    getAttr (setAttr sc n a v) n' a' =
      if n' = n ∧ a' = a then some v else getAttr sc n' a' := by
  unfold getAttr setAttr
  rw [List.find?_cons]
  by_cases hn : n' = n
  · by_cases ha : a' = a
    · subst hn; subst ha; simp
    · subst hn
      have ha' : (a == a') = false := beq_eq_false_iff_ne.mpr (fun hEq => ha hEq.symm)
      simp [ha', ha]
  · have hn' : (n == n') = false := beq_eq_false_iff_ne.mpr (fun hEq => hn hEq.symm)
    simp [hn', hn]

theorem getAttr_createAttrIfMissing (j : Nat) (a : String) (v : Int) (sc : Scene)
    (n' : Nat) (a' : String) :
    getAttr (createAttrIfMissing j a v sc) n' a' =
      if hasAttrB sc j a then getAttr sc n' a'
      else if n' = j ∧ a' = a then some v else getAttr sc n' a' := by
  unfold createAttrIfMissing
  split <;> simp [getAttr_setAttr, *]

theorem getAttr_createAttrs_aimAt (j : Nat) (sc : Scene) :
    getAttr (createAttrs j sc) j "aimAt" = some ((getAttr sc j "aimAt").getD 3) := by
  cases hx : getAttr sc j "aimAt" with
  | none => simp [createAttrs, getAttr_createAttrIfMissing, hasAttrB, hx]
  | some x => simp [createAttrs, getAttr_createAttrIfMissing, hasAttrB, hx]

theorem readVals_aimAt (j : Nat) (sc : Scene) :
    (readVals (createAttrs j sc) j).aimAt = (getAttr sc j "aimAt").getD 3 := by
  unfold readVals getAttrD
  rw [getAttr_createAttrs_aimAt]
  rfl

/-! ### Step computation lemmas for the run pipeline -/

theorem noWarnB_cons (e : Ev) (l : List Ev) :
    noWarnB (e :: l) = (evNotWarn e && noWarnB l) := rfl

theorem pinOne_oj (t : Nat) (st : St) :
    (pinOne t st).oj =
      { st.oj with delete_later := st.oj.delete_later ++ [st.sc.nextId] } := rfl

theorem pinOne_attrs (t : Nat) (st : St) : (pinOne t st).sc.attrs = st.sc.attrs := rfl

theorem pinOne_tr (t : Nat) (st : St) :
    (pinOne t st).tr = Ev.mkNode st.sc.nextId :: st.tr := rfl

theorem pinFold_oj : ∀ (l : List Nat) (st : St),
    ∃ ex, (List.foldl (fun s t => pinOne t s) st l).oj =
      { st.oj with delete_later := st.oj.delete_later ++ ex }
  | [], st => ⟨[], by simp⟩
  | t :: ts, st => by
    rw [List.foldl_cons]
    obtain ⟨ex, hex⟩ := pinFold_oj ts (pinOne t st)
    refine ⟨st.sc.nextId :: ex, ?_⟩
    rw [hex, pinOne_oj]
    simp [List.append_assoc]

theorem pinFold_attrs : ∀ (l : List Nat) (st : St),
    (List.foldl (fun s t => pinOne t s) st l).sc.attrs = st.sc.attrs
  | [], _ => rfl
  | t :: ts, st => by
    rw [List.foldl_cons, pinFold_attrs ts (pinOne t st), pinOne_attrs]

theorem pinFold_tr_mono : ∀ (l : List Nat) (st : St) (e : Ev), e ∈ st.tr →
    e ∈ (List.foldl (fun s t => pinOne t s) st l).tr
  | [], _, _, h => h
  | t :: ts, st, e, h => by
    rw [List.foldl_cons]
    exact pinFold_tr_mono ts (pinOne t st) e
      (by rw [pinOne_tr]; exact List.mem_cons_of_mem _ h)

theorem pinFold_noWarn : ∀ (l : List Nat) (st : St),
    noWarnB (List.foldl (fun s t => pinOne t s) st l).tr = noWarnB st.tr
  | [], _ => rfl
  | t :: ts, st => by
    rw [List.foldl_cons, pinFold_noWarn ts (pinOne t st), pinOne_tr, noWarnB_cons]
    rfl

theorem pinStep_oj (st : St) : ∃ ex, (pinStep st).oj =
    { st.oj with delete_later := st.oj.delete_later ++ ex } := by
  unfold pinStep
  exact pinFold_oj _ _

theorem pinStep_attrs (st : St) : (pinStep st).sc.attrs = st.sc.attrs := by
  unfold pinStep
  exact pinFold_attrs _ _

theorem pinStep_tr (st : St) : (pinStep st).tr =
    Ev.pin st.oj.joint ::
      (List.foldl (fun s t => pinOne t s) st (pinTargets st.sc st.oj.joint)).tr := rfl

theorem zeroRA_oj (effR : Pose → Pose) (st : St) :
    (zero_rotate_axis effR st).oj = st.oj := by
  unfold zero_rotate_axis
  split <;> rfl

theorem zeroRA_attrs (effR : Pose → Pose) (st : St) :
    (zero_rotate_axis effR st).sc.attrs = st.sc.attrs := by
  unfold zero_rotate_axis
  split <;> rfl

theorem zeroRA_eq_of_unlocked (effR : Pose → Pose) (st : St)
    (h : st.sc.locked.contains st.oj.joint = false) :
    zero_rotate_axis effR st =
      pushEv (.zeroRA st.oj.joint)
        { st with sc := applySubtree effR st.oj.joint st.sc } := by
  unfold zero_rotate_axis
  rw [if_neg (by rw [h]; exact Bool.false_ne_true)]

theorem get_values_none (st : St)
    (h : hasAttrB st.sc st.oj.joint "ORIENT_INFO" = false) :
    get_values st =
      (none, pushWarn .noOrientAttrs
        { st with oj := { st.oj with orient_values := none } }) := by
  unfold get_values
  rw [if_neg (by simp [h])]

theorem get_values_some (st : St)
    (h : hasAttrB st.sc st.oj.joint "ORIENT_INFO" = true) :
    get_values st =
      (some (readVals (createAttrs st.oj.joint st.sc) st.oj.joint),
       { st with
         sc := createAttrs st.oj.joint st.sc,
         oj := { st.oj with
           orient_values := some (readVals (createAttrs st.oj.joint st.sc) st.oj.joint) } }) := by
  unfold get_values
  rw [if_pos h]

theorem getAttr_congr {sc1 sc2 : Scene} (h : sc1.attrs = sc2.attrs) (n : Nat)
    (a : String) : getAttr sc1 n a = getAttr sc2 n a := by
  unfold getAttr
  rw [h]

theorem hasAttrB_congr {sc1 sc2 : Scene} (h : sc1.attrs = sc2.attrs) (n : Nat)
    (a : String) : hasAttrB sc1 n a = hasAttrB sc2 n a := by
  unfold hasAttrB
  rw [getAttr_congr h]

theorem get_relatives_aim_at (sc : Scene) (oj : OJ) :
    (get_relatives sc oj).aim_at = oj.aim_at := by
  unfold get_relatives
  dsimp only
  repeat' split
  all_goals rfl

theorem get_relatives_aim_up_at (sc : Scene) (oj : OJ) :
    (get_relatives sc oj).aim_up_at = oj.aim_up_at := by
  unfold get_relatives
  dsimp only
  repeat' split
  all_goals rfl

theorem get_relatives_aim_vector (sc : Scene) (oj : OJ) :
    (get_relatives sc oj).aim_vector = oj.aim_vector := by
  unfold get_relatives
  dsimp only
  repeat' split
  all_goals rfl

theorem get_relatives_up_vector (sc : Scene) (oj : OJ) :
    (get_relatives sc oj).up_vector = oj.up_vector := by
  unfold get_relatives
  dsimp only
  repeat' split
  all_goals rfl

theorem get_relatives_world_up_vector (sc : Scene) (oj : OJ) :
    (get_relatives sc oj).world_up_vector = oj.world_up_vector := by
  unfold get_relatives
  dsimp only
  repeat' split
  all_goals rfl

theorem get_relatives_up_space_type (sc : Scene) (oj : OJ) :
    (get_relatives sc oj).up_space_type = oj.up_space_type := by
  unfold get_relatives
  dsimp only
  repeat' split
  all_goals rfl

theorem get_relatives_orient_values (sc : Scene) (oj : OJ) :
    (get_relatives sc oj).orient_values = oj.orient_values := by
  unfold get_relatives
  dsimp only
  repeat' split
  all_goals rfl

theorem get_relatives_child_nil {sc : Scene} {oj : OJ}
    (h : childrenOf sc oj.joint = []) : (get_relatives sc oj).child = oj.child := by
  unfold get_relatives
  dsimp only
  rw [h]
  dsimp only
  repeat' split
  all_goals rfl

theorem get_relatives_child_cons {sc : Scene} {oj : OJ} {c : Nat} {cs : List Nat}
    (h : childrenOf sc oj.joint = c :: cs) : (get_relatives sc oj).child = some c := by
  unfold get_relatives
  dsimp only
  rw [h]
  dsimp only
  repeat' split
  all_goals rfl

theorem mkOJ_aim_at (sc : Scene) (j : Nat) : (mkOJ sc j).aim_at = .idx 3 := by
  unfold mkOJ
  rw [get_relatives_aim_at]

theorem mkOJ_aim_up_at (sc : Scene) (j : Nat) : (mkOJ sc j).aim_up_at = .idx 0 := by
  unfold mkOJ
  rw [get_relatives_aim_up_at]

theorem mkOJ_aim_vector (sc : Scene) (j : Nat) : (mkOJ sc j).aim_vector = (1, 0, 0) := by
  unfold mkOJ
  rw [get_relatives_aim_vector]

theorem mkOJ_up_vector (sc : Scene) (j : Nat) : (mkOJ sc j).up_vector = (0, 1, 0) := by
  unfold mkOJ
  rw [get_relatives_up_vector]

theorem mkOJ_world_up_vector (sc : Scene) (j : Nat) :
    (mkOJ sc j).world_up_vector = (0, 1, 0) := by
  unfold mkOJ
  rw [get_relatives_world_up_vector]
  rfl

theorem mkOJ_up_space_type (sc : Scene) (j : Nat) :
    (mkOJ sc j).up_space_type = "vector" := by
  unfold mkOJ
  rw [get_relatives_up_space_type]

theorem mkOJ_orient_values (sc : Scene) (j : Nat) : (mkOJ sc j).orient_values = none := by
  unfold mkOJ
  rw [get_relatives_orient_values]

theorem mkOJ_child_nil {sc : Scene} {j : Nat} (h : childrenOf sc j = []) :
    (mkOJ sc j).child = none := by
  unfold mkOJ
  rw [get_relatives_child_nil h]

theorem mkOJ_child_cons {sc : Scene} {j c : Nat} {cs : List Nat}
    (h : childrenOf sc j = c :: cs) : (mkOJ sc j).child = some c := by
  unfold mkOJ
  exact get_relatives_child_cons h

theorem get_aim_at_3 (st : St) :
    get_aim_at 3 st = liftOpt (get_position_group st.oj.child st) := by
  unfold get_aim_at
  rw [if_neg (by decide), if_pos rfl]

theorem get_aim_up_at_0 (st : St) : get_aim_up_at 0 st = (.ok none, st) := by
  unfold get_aim_up_at
  rw [if_neg (by decide), if_neg (by decide), if_neg (by decide), if_neg (by decide),
    if_neg (by decide)]

theorem lookupPar_none_of_big {sc : Scene} {g N : Nat}
    (hpar : ∀ e ∈ sc.par, e.1 < N) (hg : N ≤ g) :
    lookupPar sc g = none := by
  have hnone : sc.par.find? (fun e => e.1 == g) = none := by
    rw [List.find?_eq_none]
    intro x hx hpx
    have h1 := hpar x hx
    rw [eq_of_beq hpx] at h1
    exact absurd hg (Nat.not_le.mpr h1)
  unfold lookupPar
  rw [hnone]
  rfl

/-! ### Claim theorems -/

/-- C1 witness: in the demo chain, reorienting joint 1 (which has parent 0,
children 2 and 4, and grand child 3) leaves the world pose of the grand
child 3 unchanged, for a nontrivial pose effect. -/
theorem orient_run_preserves_relatives_witness :
    ((run effDemo effDemo (mkSt demoScene 1)).2).sc.poseF 3 = demoScene.poseF 3 :=
  orient_run_preserves_relatives demoScene 1 3 effDemo effDemo (by decide) (by decide)
    (by decide) (by decide) (by decide)

/-- C4 (code bug): in a five-node chain with joint 2, whose relatives are
all present and distinct, the triangle-anchor dispatch of
`_get_triangle_group` sends index 3 — `child` in the documented 5-way
mapping — to no target at all, and sends index 4 — `grandchild` in the
documented mapping — to the first child instead of the grand child,
because the source tests `index == 4` twice and never tests `index == 3`. -/
theorem triangle_target_dispatch_eval :
    (mkOJ demoChain 2).child = some 3 ∧
    (mkOJ demoChain 2).grand_child = some 4 ∧
    triangle_target (mkOJ demoChain 2) 3 = none ∧
    triangle_target (mkOJ demoChain 2) 4 = some 3 ∧
    triangle_target (mkOJ demoChain 2) 0 = some 0 ∧
    triangle_target (mkOJ demoChain 2) 1 = some 1 ∧
    triangle_target (mkOJ demoChain 2) 2 = some 2 := by
  decide

/-- C8: a joint whose `active` attribute exists and is falsy makes `run`
return normally with the scene completely untouched, the instance state
untouched, and a single inactive warning as the whole trace: no freeze,
no pin, and no node creation happen. -/
theorem run_inactive_is_noop (sc : Scene) (j : Nat) (effR effA : Pose → Pose)
    (h : activeSkip sc j = true) :
    run effR effA (mkSt sc j) =
      (.ok (), { mkSt sc j with tr := [Ev.warn .inactive] }) := by
  unfold run
  have hc : activeSkip (mkSt sc j).sc (mkSt sc j).oj.joint = true := by
    dsimp only [mkSt]
    rw [mkOJ_joint]
    exact h
  rw [if_pos hc]
  rfl

/-- C8 witness: the inactive demo joint is skipped with only the warning. -/
theorem run_inactive_is_noop_witness :
    run effDemo effDemo
        (mkSt (demoWith [(1, "ORIENT_INFO", 0), (1, "active", 0)]) 1) =
      (.ok (), { mkSt (demoWith [(1, "ORIENT_INFO", 0), (1, "active", 0)]) 1 with
        tr := [Ev.warn .inactive] }) :=
  run_inactive_is_noop (demoWith [(1, "ORIENT_INFO", 0), (1, "active", 0)]) 1
    effDemo effDemo (by decide)

/-- C5 (code bug): index 3 of the persisted `aimUpAt` enum is labelled
`trianglePlane`, yet running the solve with `aimUpAt = 3` applies the aim
constraint with an up object (node 9) that is a plain position group whose
final pose equals the parent's original pose — no plane fit and no 10-unit
offset along local +Y ever happen, and no triangle diagnostics appear —
because `_get_aim_up_at` handles the parent position at index 3 and
reaches the triangle-plane code only at index 4. -/
theorem aim_up_at_trianglePlane_is_parent_group :
    aimUpAtEnumNames.get? 3 = some "trianglePlane" ∧
    (run effDemo effDemo (mkSt (demoWith [(1, "ORIENT_INFO", 0), (1, "aimAt", 0),
      (1, "aimUpAt", 3), (1, "active", 1)]) 1)).1 = Res.ok () ∧
    Ev.aim 8 (some 9) (1, 0, 0) (0, 1, 0) (0, 1, 0) "object" ∈
      (run effDemo effDemo (mkSt (demoWith [(1, "ORIENT_INFO", 0), (1, "aimAt", 0),
        (1, "aimUpAt", 3), (1, "active", 1)]) 1)).2.tr ∧
    (run effDemo effDemo (mkSt (demoWith [(1, "ORIENT_INFO", 0), (1, "aimAt", 0),
      (1, "aimUpAt", 3), (1, "active", 1)]) 1)).2.sc.poseF 9 = demoPose 0 ∧
    Ev.warn Warn.triangle ∉
      (run effDemo effDemo (mkSt (demoWith [(1, "ORIENT_INFO", 0), (1, "aimAt", 0),
        (1, "aimUpAt", 3), (1, "active", 1)]) 1)).2.tr := by
  decide

/-- C6 (code bug): index 4 of the persisted `aimUpAt` enum is labelled
`2ndChildPosition`, yet running the solve with `aimUpAt = 4` on a joint
with exactly one child executes the triangle-plane branch — it logs the
triangle warning, not the missing-second-child warning, and the constraint
is applied with no up object and up type `vector` (the branch returns
before up-space is changed).  The actual second-child branch is reachable
only for index 5, where reading the never-assigned `self.child2` attribute
(misspelled `chidl2` in `__init__`) raises when fewer than two children
were found. -/
theorem aim_up_at_secondChild_dispatch_eval :
    aimUpAtEnumNames.get? 4 = some "2ndChildPosition" ∧
    (run effDemo effDemo (mkSt (demoWith [(2, "ORIENT_INFO", 0), (2, "aimAt", 0),
      (2, "aimUpAt", 4)]) 2)).1 = Res.ok () ∧
    Ev.warn Warn.triangle ∈
      (run effDemo effDemo (mkSt (demoWith [(2, "ORIENT_INFO", 0), (2, "aimAt", 0),
        (2, "aimUpAt", 4)]) 2)).2.tr ∧
    Ev.warn Warn.noChild2 ∉
      (run effDemo effDemo (mkSt (demoWith [(2, "ORIENT_INFO", 0), (2, "aimAt", 0),
        (2, "aimUpAt", 4)]) 2)).2.tr ∧
    Ev.aim 7 none (1, 0, 0) (0, 1, 0) (0, 1, 0) "vector" ∈
      (run effDemo effDemo (mkSt (demoWith [(2, "ORIENT_INFO", 0), (2, "aimAt", 0),
        (2, "aimUpAt", 4)]) 2)).2.tr ∧
    (get_aim_up_at 5 (mkSt demoScene 2)).1 = Res.err := by
  decide

/-- C2 counterexample: joint 3 is a leaf carrying the attribute set with
the default `aimAt = child`; resolving the missing child fails, `run`
propagates the error, and the pin helper node 5 — recorded in the deletion
list — is still in the scene when `run` returns. -/
theorem run_err_leaks_recorded_nodes :
    (run effDemo effDemo (mkSt (demoWith [(3, "ORIENT_INFO", 0),
      (3, "active", 1)]) 3)).1 = Res.err ∧
    5 ∈ (run effDemo effDemo (mkSt (demoWith [(3, "ORIENT_INFO", 0),
      (3, "active", 1)]) 3)).2.oj.delete_later ∧
    5 ∈ (run effDemo effDemo (mkSt (demoWith [(3, "ORIENT_INFO", 0),
      (3, "active", 1)]) 3)).2.sc.nodes := by
  decide

/-- C3 counterexample: joint 3 is a leaf carrying the attribute set (with
the default `aimAt = child`); `run` raises instead of returning, and no
warning of any kind is logged — there is no missing-relative check and no
skip. -/
theorem run_missing_child_no_warning_eval :
    (run effDemo effDemo (mkSt (demoWith [(3, "ORIENT_INFO", 0)]) 3)).1 = Res.err ∧
    noWarnB (run effDemo effDemo (mkSt (demoWith [(3, "ORIENT_INFO", 0)]) 3)).2.tr
      = true := by
  decide

/-- C7 counterexample: on a fresh joint, `add_orient_attributes` leaves the
`aimAt` attribute at its constructor default 3, which is the enum label
`child` — not `localParent`, which sits at index 5. -/
theorem add_orient_attributes_aimAt_default_eval :
    getAttr (add_orient_attributes 0 scSingle) 0 "aimAt" = some 3 ∧
    aimAtEnumNames.get? 3 = some "child" ∧
    aimAtEnumNames.get? 5 = some "localParent" ∧
    ¬ getAttr (add_orient_attributes 0 scSingle) 0 "aimAt" = some 5 := by
  decide

/-- The deletion list of a freshly constructed `OrientJoint` is empty. -/
theorem mkOJ_delete_later (sc : Scene) (j : Nat) : (mkOJ sc j).delete_later = [] := by
  unfold mkOJ
  rw [get_relatives_delete_later]

/-- C2 amended: on every exit of `run` that returns normally — the inactive
skip, where nothing is recorded, and normal completion, where `_cleanup`
runs — every node recorded in the deletion list has been deleted from the
scene.  The guarantee does not hold on exceptional exits, where the error
propagates past `_cleanup` (see the counterexample). -/
theorem run_ok_deletes_recorded (sc : Scene) (j : Nat) (effR effA : Pose → Pose)
    (hok : (run effR effA (mkSt sc j)).1 = Res.ok ()) :
    ∀ n ∈ (run effR effA (mkSt sc j)).2.oj.delete_later,
      n ∉ (run effR effA (mkSt sc j)).2.sc.nodes := by
  intro n hn hmem
  unfold run at hok hn hmem
  by_cases hb : activeSkip (mkSt sc j).sc (mkSt sc j).oj.joint = true
  · rw [if_pos hb] at hn
    simp only [pushWarn, pushEv] at hn
    dsimp only [mkSt] at hn
    rw [mkOJ_delete_later] at hn
    exact absurd hn (List.not_mem_nil n)
  · rw [if_neg hb] at hok hn hmem
    unfold runActive at hok hn hmem
    rcases hx : resolveTargets (get_values (zero_rotate_axis effR (pinStep (relativesStep
      (freezeStep (mkSt sc j)))))).2 with ⟨res, s⟩
    rw [hx] at hok hn hmem
    unfold afterResolve at hok hn hmem
    cases res with
    | err => exact Res.noConfusion hok
    | ok a =>
      dsimp only at hok hn hmem
      rcases hc : create_aim effA s with ⟨res2, s2⟩
      rw [hc] at hok hn hmem
      cases res2 with
      | err => exact Res.noConfusion hok
      | ok b =>
        simp only [freezeStep, pushEv, cleanup] at hn hmem
        rw [List.mem_filter] at hmem
        have h2 := hmem.2
        rw [Bool.not_eq_true'] at h2
        have h3 : (s2.oj.delete_later).contains n = true := by
          simpa using hn
        rw [h3] at h2
        exact Bool.noConfusion h2

/-- C2 amended witness: a full successful solve on the demo joint deletes
recorded temporary 5 (the first pin helper) from the scene. -/
theorem run_ok_deletes_recorded_witness :
    5 ∉ (run effDemo effDemo (mkSt demoScene 1)).2.sc.nodes :=
  run_ok_deletes_recorded demoScene 1 effDemo effDemo (by decide) 5 (by decide)

theorem getAttr_none_of_fresh {sc : Scene} {j : Nat}
    (h : ∀ e ∈ sc.attrs, ¬ e.1 = j) (a : String) : getAttr sc j a = none := by
  unfold getAttr
  cases hf : sc.attrs.find? (fun e => e.1 == j && e.2.1 == a) with
  | none => rfl
  | some e =>
    have hmem := List.mem_of_find?_eq_some hf
    have hpred := List.find?_some hf
    simp only [Bool.and_eq_true, beq_iff_eq] at hpred
    exact absurd hpred.1 (h e hmem)

/-- C7 amended: on a joint with no attributes yet, `add_orient_attributes`
creates ORIENT_INFO and the nine orient attributes with the source
defaults: aimAxis 0 (+X), upAxis 1 (+Y), worldUpAxis 1 (+Y), aimAt 3
(`child`, not `localParent`), aimUpAt 0 (`world`, created only by the
default-value write because line 337 creates aimAt a second time instead
of aimUpAt), triangle anchors 1, 2, 3, and active 1 (true). -/
theorem add_orient_attributes_defaults (sc : Scene) (j : Nat)
    (h : ∀ e ∈ sc.attrs, ¬ e.1 = j) :
    getAttr (add_orient_attributes j sc) j "ORIENT_INFO" = some 0 ∧
    getAttr (add_orient_attributes j sc) j "aimAxis" = some 0 ∧
    getAttr (add_orient_attributes j sc) j "upAxis" = some 1 ∧
    getAttr (add_orient_attributes j sc) j "worldUpAxis" = some 1 ∧
    getAttr (add_orient_attributes j sc) j "aimAt" = some 3 ∧
    getAttr (add_orient_attributes j sc) j "aimUpAt" = some 0 ∧
    getAttr (add_orient_attributes j sc) j "triangleTop" = some 1 ∧
    getAttr (add_orient_attributes j sc) j "triangleMid" = some 2 ∧
    getAttr (add_orient_attributes j sc) j "triangleBottom" = some 3 ∧
    getAttr (add_orient_attributes j sc) j "active" = some 1 := by
  have hb := getAttr_none_of_fresh h
  refine ⟨?_, ?_, ?_, ?_, ?_, ?_, ?_, ?_, ?_, ?_⟩ <;>
    simp [add_orient_attributes, set_default_values, createAttrs,
      getAttr_setAttr, getAttr_createAttrIfMissing, hasAttrB, hb]

/-- C7 amended witness: the fresh single-node scene gets the full
attribute set with the source defaults. -/
theorem add_orient_attributes_defaults_witness :
    getAttr (add_orient_attributes 0 scSingle) 0 "ORIENT_INFO" = some 0 ∧
    getAttr (add_orient_attributes 0 scSingle) 0 "aimAxis" = some 0 ∧
    getAttr (add_orient_attributes 0 scSingle) 0 "upAxis" = some 1 ∧
    getAttr (add_orient_attributes 0 scSingle) 0 "worldUpAxis" = some 1 ∧
    getAttr (add_orient_attributes 0 scSingle) 0 "aimAt" = some 3 ∧
    getAttr (add_orient_attributes 0 scSingle) 0 "aimUpAt" = some 0 ∧
    getAttr (add_orient_attributes 0 scSingle) 0 "triangleTop" = some 1 ∧
    getAttr (add_orient_attributes 0 scSingle) 0 "triangleMid" = some 2 ∧
    getAttr (add_orient_attributes 0 scSingle) 0 "triangleBottom" = some 3 ∧
    getAttr (add_orient_attributes 0 scSingle) 0 "active" = some 1 :=
  add_orient_attributes_defaults scSingle 0 (by decide)


/-- C3 amended: when the persisted configuration selects `aimAt = child`
(index 3) and the joint has no children, `run` does not log a warning and
does not skip the joint: the `children[0]` subscript in `_get_aim_at`
raises, the exception propagates out of `run`, and the whole trace of the
call contains no warning at all — the freeze, the pin and the rotate-axis
zeroing have already mutated the scene by then. -/
theorem run_missing_child_errs_silently
    (sc : Scene) (j : Nat) (effR effA : Pose → Pose)
    (hact : activeSkip sc j = false)
    (hinfo : hasAttrB sc j "ORIENT_INFO" = true)
    (haim : getAttr sc j "aimAt" = some 3)
    (hch : childrenOf sc j = [])
    (hlock : sc.locked.contains j = false) :
    (run effR effA (mkSt sc j)).1 = Res.err ∧
    noWarnB (run effR effA (mkSt sc j)).2.tr = true := by
  unfold run
  have hactm : ¬ (activeSkip (mkSt sc j).sc (mkSt sc j).oj.joint = true) := by
    dsimp only [mkSt]
    rw [mkOJ_joint, hact]
    exact Bool.false_ne_true
  rw [if_neg hactm]
  unfold runActive
  set st0 : St := mkSt sc j with hst0
  set st1 : St := freezeStep st0 with hst1
  set st2 : St := relativesStep st1 with hst2
  set st3 : St := pinStep st2 with hst3
  set st4 : St := zero_rotate_axis effR st3 with hst4
  have hsc2 : st2.sc = sc := by rw [hst2, hst1, hst0]; rfl
  have hoj2 : st2.oj = get_relatives sc (mkOJ sc j) := by rw [hst2, hst1, hst0]; rfl
  have hj2 : st2.oj.joint = j := by rw [hoj2, get_relatives_joint, mkOJ_joint]
  have htr2 : st2.tr = [Ev.freeze j] := by
    rw [hst2, hst1, hst0]
    dsimp only [relativesStep, freezeStep, pushEv, mkSt]
    rw [mkOJ_joint]
  have hchild2 : st2.oj.child = none := by
    rw [hoj2, get_relatives_child_nil (by rw [mkOJ_joint]; exact hch), mkOJ_child_nil hch]
  obtain ⟨ex3, hoj3⟩ := pinStep_oj st2
  rw [← hst3] at hoj3
  have hchild3 : st3.oj.child = none := by rw [hoj3]; exact hchild2
  have hj3 : st3.oj.joint = j := by rw [hoj3]; exact hj2
  have hattrs3 : st3.sc.attrs = sc.attrs := by
    rw [hst3, pinStep_attrs, hsc2]
  have hlock3 : st3.sc.locked = sc.locked := by
    rw [hst3]
    rw [(keep_pinStep (r := 0) st2).locked_eq, hsc2]
  have hlocked3 : st3.sc.locked.contains st3.oj.joint = false := by
    rw [hlock3, hj3]
    exact hlock
  have hst4eq : st4 = pushEv (.zeroRA j) { st3 with sc := applySubtree effR j st3.sc } := by
    rw [hst4, zeroRA_eq_of_unlocked effR st3 hlocked3, hj3]
  have hattrs4 : st4.sc.attrs = sc.attrs := by rw [hst4, zeroRA_attrs, hattrs3]
  have hoj4 : st4.oj = st3.oj := by rw [hst4, zeroRA_oj]
  have htr4 : st4.tr = Ev.zeroRA j :: st3.tr := by rw [hst4eq]; rfl
  have hjj4 : st4.oj.joint = j := by rw [hoj4]; exact hj3
  have hinfo4 : hasAttrB st4.sc st4.oj.joint "ORIENT_INFO" = true := by
    rw [hjj4, hasAttrB_congr hattrs4]
    exact hinfo
  set v : Vals := readVals (createAttrs j st4.sc) j with hv
  set st5 : St := { st4 with
    sc := createAttrs j st4.sc,
    oj := { st4.oj with orient_values := some v } } with hst5
  have hgv2 : (get_values st4).2 = st5 := by
    rw [get_values_some st4 hinfo4, hjj4]
  have hov5 : st5.oj.orient_values = some v := by rw [hst5]
  have hchild5 : st5.oj.child = none := by
    rw [hst5, hoj4]
    exact hchild3
  have htr5 : st5.tr = st4.tr := by rw [hst5]
  have hva : v.aimAt = 3 := by
    rw [hv, readVals_aimAt, getAttr_congr hattrs4, haim]
    rfl
  rw [hgv2]
  have hrt : resolveTargets st5 = resolveFromVals v st5 := by
    unfold resolveTargets
    rw [hov5]
  set stv : St := setVectorsFromVals v st5 with hstv
  have hchildv : stv.oj.child = none := hchild5
  have hrf : resolveFromVals v st5 = (.err, (createNode stv).2) := by
    unfold resolveFromVals
    rw [hva, ← hstv, get_aim_at_3, hchildv]
    rfl
  rw [hrt, hrf]
  refine ⟨rfl, ?_⟩
  show noWarnB (createNode stv).2.tr = true
  have htrg : (createNode stv).2.tr = Ev.mkNode stv.sc.nextId :: stv.tr := rfl
  have hnw : noWarnB stv.tr = true := by
    have h1 : stv.tr = st4.tr := htr5
    rw [h1, htr4, noWarnB_cons, hst3, pinStep_tr, noWarnB_cons, pinFold_noWarn, htr2]
    rfl
  rw [htrg, noWarnB_cons, hnw]
  rfl

/-- C3 amended witness: joint 3 of the demo scene, carrying the orient
attributes with `aimAt = child` and having no children: `run` raises and
its trace holds no warning. -/
theorem run_missing_child_errs_silently_witness :
    (run effDemo effDemo
        (mkSt (demoWith [(3, "ORIENT_INFO", 1), (3, "aimAt", 3)]) 3)).1 = Res.err ∧
    noWarnB (run effDemo effDemo
        (mkSt (demoWith [(3, "ORIENT_INFO", 1), (3, "aimAt", 3)]) 3)).2.tr = true :=
  run_missing_child_errs_silently (demoWith [(3, "ORIENT_INFO", 1), (3, "aimAt", 3)]) 3
    effDemo effDemo (by decide) (by decide) (by decide) (by decide) (by decide)

/-- C10: running the solve directly on a joint that has a child but carries
no ORIENT_INFO orient attributes is not a no-op: it warns that the
attributes do not exist and still runs the full freeze/pin/solve/cleanup
pipeline with the constructor defaults — the aim constraint is applied to
a position group standing exactly at the first child, with no up object,
aim vector +X, up vector +Y, world-up vector (0,1,0) and up-space type
`vector` — and the temporary aim target is deleted from the scene again
before `run` returns. -/
theorem run_no_orient_attrs_full_pipeline
    (sc : Scene) (j c : Nat) (cs : List Nat) (effR effA : Pose → Pose)
    (hwf : ∀ n ∈ sc.nodes, n < sc.nextId)
    (hjn : j ∈ sc.nodes)
    (hparwf : ∀ e ∈ sc.par, e.1 < sc.nextId)
    (hact : activeSkip sc j = false)
    (hno : hasAttrB sc j "ORIENT_INFO" = false)
    (hch : childrenOf sc j = c :: cs)
    (hlock : sc.locked.contains j = false)
    (hself : lookupPar sc j ≠ some j) :
    (run effR effA (mkSt sc j)).1 = Res.ok () ∧
    Ev.warn .noOrientAttrs ∈ (run effR effA (mkSt sc j)).2.tr ∧
    Ev.freeze j ∈ (run effR effA (mkSt sc j)).2.tr ∧
    Ev.pin j ∈ (run effR effA (mkSt sc j)).2.tr ∧
    ∃ g, Ev.aim g none (1, 0, 0) (0, 1, 0) (0, 1, 0) "vector"
        ∈ (run effR effA (mkSt sc j)).2.tr ∧
      (run effR effA (mkSt sc j)).2.sc.poseF g = sc.poseF c ∧
      g ∉ (run effR effA (mkSt sc j)).2.sc.nodes := by
  unfold run
  have hactm : ¬ (activeSkip (mkSt sc j).sc (mkSt sc j).oj.joint = true) := by
    dsimp only [mkSt]
    rw [mkOJ_joint, hact]
    exact Bool.false_ne_true
  rw [if_neg hactm]
  unfold runActive
  set st0 : St := mkSt sc j with hst0
  set st1 : St := freezeStep st0 with hst1
  set st2 : St := relativesStep st1 with hst2
  set st3 : St := pinStep st2 with hst3
  set st4 : St := zero_rotate_axis effR st3 with hst4
  have hsc2 : st2.sc = sc := by rw [hst2, hst1, hst0]; rfl
  have hoj2 : st2.oj = get_relatives sc (mkOJ sc j) := by rw [hst2, hst1, hst0]; rfl
  have hj2 : st2.oj.joint = j := by rw [hoj2, get_relatives_joint, mkOJ_joint]
  have htr2 : st2.tr = [Ev.freeze j] := by
    rw [hst2, hst1, hst0]
    dsimp only [relativesStep, freezeStep, pushEv, mkSt]
    rw [mkOJ_joint]
  have hchild2 : st2.oj.child = some c := by
    rw [hoj2, get_relatives_child_cons (by rw [mkOJ_joint]; exact hch)]
  have haim2 : st2.oj.aim_at = .idx 3 := by rw [hoj2, get_relatives_aim_at, mkOJ_aim_at]
  have hup2 : st2.oj.aim_up_at = .idx 0 := by
    rw [hoj2, get_relatives_aim_up_at, mkOJ_aim_up_at]
  have hav2 : st2.oj.aim_vector = (1, 0, 0) := by
    rw [hoj2, get_relatives_aim_vector, mkOJ_aim_vector]
  have huv2 : st2.oj.up_vector = (0, 1, 0) := by
    rw [hoj2, get_relatives_up_vector, mkOJ_up_vector]
  have hwv2 : st2.oj.world_up_vector = (0, 1, 0) := by
    rw [hoj2, get_relatives_world_up_vector, mkOJ_world_up_vector]
  have hust2 : st2.oj.up_space_type = "vector" := by
    rw [hoj2, get_relatives_up_space_type, mkOJ_up_space_type]
  obtain ⟨ex3, hoj3⟩ := pinStep_oj st2
  rw [← hst3] at hoj3
  have hchild3 : st3.oj.child = some c := by rw [hoj3]; exact hchild2
  have hj3 : st3.oj.joint = j := by rw [hoj3]; exact hj2
  have haim3 : st3.oj.aim_at = .idx 3 := by rw [hoj3]; exact haim2
  have hup3 : st3.oj.aim_up_at = .idx 0 := by rw [hoj3]; exact hup2
  have hav3 : st3.oj.aim_vector = (1, 0, 0) := by rw [hoj3]; exact hav2
  have huv3 : st3.oj.up_vector = (0, 1, 0) := by rw [hoj3]; exact huv2
  have hwv3 : st3.oj.world_up_vector = (0, 1, 0) := by rw [hoj3]; exact hwv2
  have hust3 : st3.oj.up_space_type = "vector" := by rw [hoj3]; exact hust2
  have hattrs3 : st3.sc.attrs = sc.attrs := by
    rw [hst3, pinStep_attrs, hsc2]
  have hlock3 : st3.sc.locked = sc.locked := by
    rw [hst3]
    rw [(keep_pinStep (r := 0) st2).locked_eq, hsc2]
  have hlocked3 : st3.sc.locked.contains st3.oj.joint = false := by
    rw [hlock3, hj3]
    exact hlock
  have K01 : Keep c st0 st1 := by rw [hst1]; exact keep_pushEv _ _
  have K12 : Keep c st1 st2 := by rw [hst2]; exact keep_relativesStep _
  have K23 : Keep c st2 st3 := by rw [hst3]; exact keep_pinStep _
  have K03 := (K01.trans K12).trans K23
  have hcmem : c ∈ childrenOf sc j := by rw [hch]; exact List.mem_cons_self c cs
  have hcj : c ≠ j := by
    intro hEq
    have hpc := lookupPar_of_childrenOf hcmem
    rw [hEq] at hpc
    exact hself hpc
  have hpins3 : pinnedB st3.sc c = true := by
    have ht2 : c ∈ pinTargets st2.sc st2.oj.joint := by
      rw [hsc2, hj2]
      exact List.mem_append_right _ hcmem
    rw [hst3]
    exact pinned_pinStep st2 c ht2
  have hsh3 : affectedB st3.sc st3.oj.joint c = false := by
    rw [hj3]
    exact affectedB_false_of_pinned st3.sc j c hpins3 hcj
  have K34 : Keep c st3 st4 := by rw [hst4]; exact keep_zero_rotate_axis effR st3 hsh3
  have hst4eq : st4 = pushEv (.zeroRA j) { st3 with sc := applySubtree effR j st3.sc } := by
    rw [hst4, zeroRA_eq_of_unlocked effR st3 hlocked3, hj3]
  have hoj4 : st4.oj = st3.oj := by rw [hst4, zeroRA_oj]
  have htr4 : st4.tr = Ev.zeroRA j :: st3.tr := by rw [hst4eq]; rfl
  have hjj4 : st4.oj.joint = j := by rw [hoj4]; exact hj3
  have hattrs4 : st4.sc.attrs = sc.attrs := by rw [hst4, zeroRA_attrs, hattrs3]
  have hinfo4 : hasAttrB st4.sc st4.oj.joint "ORIENT_INFO" = false := by
    rw [hjj4, hasAttrB_congr hattrs4]
    exact hno
  set st5 : St := pushWarn .noOrientAttrs
    { st4 with oj := { st4.oj with orient_values := none } } with hst5
  have hgv2 : (get_values st4).2 = st5 := by
    rw [get_values_none st4 hinfo4]
  have K45 : Keep c st4 st5 := by rw [← hgv2]; exact keep_get_values st4
  have K05 := (K03.trans K34).trans K45
  have hov5 : st5.oj.orient_values = none := by rw [hst5]; rfl
  have hchild5 : st5.oj.child = some c := by rw [hst5, hoj4]; exact hchild3
  have haim5 : st5.oj.aim_at = .idx 3 := by rw [hst5, hoj4]; exact haim3
  have hup5 : st5.oj.aim_up_at = .idx 0 := by rw [hst5, hoj4]; exact hup3
  have hav5 : st5.oj.aim_vector = (1, 0, 0) := by rw [hst5, hoj4]; exact hav3
  have huv5 : st5.oj.up_vector = (0, 1, 0) := by rw [hst5, hoj4]; exact huv3
  have hwv5 : st5.oj.world_up_vector = (0, 1, 0) := by rw [hst5, hoj4]; exact hwv3
  have hust5 : st5.oj.up_space_type = "vector" := by rw [hst5, hoj4]; exact hust3
  have htr5 : st5.tr = Ev.warn .noOrientAttrs :: st4.tr := by rw [hst5]; rfl
  have hcb : c < sc.nextId := hwf c (mem_nodes_of_childrenOf hcmem)
  have hjb : j < sc.nextId := hwf j hjn
  have hpose5c : st5.sc.poseF c = sc.poseF c := by
    have h1 := K05.pose (show c < st0.sc.nextId from hcb)
    exact h1.trans (by rw [hst0]; rfl)
  rw [hgv2]
  have hrnv : resolveTargets st5 = resolveNoVals st5 := by
    unfold resolveTargets
    rw [hov5]
  set g : Nat := st5.sc.nextId with hg
  set stg : St := (createNode st5).2 with hstg
  set stm : St := matchTR c g stg with hstm
  set sA : St := pushDeleteLater g stm with hsA
  have hgp : get_position_group (some c) st5 = (.ok g, sA) := rfl
  have hra : resolveAim st5 = (.ok (), setAimAtNode (some g) sA) := by
    unfold resolveAim
    rw [haim5]
    dsimp only
    rw [get_aim_at_3, hchild5, hgp]
    rfl
  set sB : St := setAimAtNode (some g) sA with hsB
  have hupB : sB.oj.aim_up_at = .idx 0 := hup5
  have hru : resolveUp sB = (.ok (), setAimUpAtNode none sB) := by
    unfold resolveUp
    rw [hupB]
    dsimp only
    rw [get_aim_up_at_0]
  set sC : St := setAimUpAtNode none sB with hsC
  have hrn : resolveNoVals st5 = (.ok (), sC) := by
    unfold resolveNoVals
    rw [hra]
    dsimp only
    rw [hru]
  have hrtC : resolveTargets st5 = (.ok (), sC) := hrnv.trans hrn
  have haimC : sC.oj.aim_at = AimRaw.node (some g) := rfl
  have hupC : sC.oj.aim_up_at = AimRaw.node none := rfl
  have havC : sC.oj.aim_vector = (1, 0, 0) := hav5
  have huvC : sC.oj.up_vector = (0, 1, 0) := huv5
  have hwvC : sC.oj.world_up_vector = (0, 1, 0) := hwv5
  have hustC : sC.oj.up_space_type = "vector" := hust5
  have hjC : sC.oj.joint = j := hjj4
  set stE : St := pushEv (.aim g none (1, 0, 0) (0, 1, 0) (0, 1, 0) "vector") sC with hstE
  set stF : St := { stE with sc := applySubtree effA j stE.sc } with hstF
  set stG : St := (createNode stF).2 with hstG
  set cns : Nat := stF.sc.nextId with hcns
  set sD : St := pushDeleteLater cns stG with hsD
  have hca : create_aim effA sC = (.ok (), sD) := by
    unfold create_aim
    rw [haimC]
    dsimp only
    rw [hupC]
    dsimp only [pushEv]
    rw [havC, huvC, hwvC, hustC, hjC]
    rw [hsD, hstG, hcns, hstF, hstE]
    rfl
  have har : afterResolve effA (resolveTargets st5) = (.ok (), freezeStep (cleanup sD)) := by
    rw [hrtC]
    unfold afterResolve
    dsimp only
    rw [hca]
  set FIN : St := freezeStep (cleanup sD) with hFIN
  rw [har]
  have htrD : sD.tr = Ev.mkNode cns ::
      Ev.aim g none (1, 0, 0) (0, 1, 0) (0, 1, 0) "vector" :: sC.tr := rfl
  have htrC : sC.tr = Ev.mkNode g :: st5.tr := rfl
  have hFINtr : FIN.tr = Ev.freeze (cleanup sD).oj.joint ::
      Ev.del sD.oj.delete_later :: sD.tr := by
    rw [hFIN]
    rfl
  have hw4 : Ev.warn Warn.noOrientAttrs ∈ st5.tr := by
    rw [htr5]
    exact List.mem_cons_self _ _
  have hfr3 : Ev.freeze j ∈ st3.tr := by
    have h1 : Ev.freeze j ∈ st2.tr := by
      rw [htr2]
      exact List.mem_singleton_self _
    rw [hst3, pinStep_tr]
    exact List.mem_cons_of_mem _ (pinFold_tr_mono _ st2 _ h1)
  have hpin3 : Ev.pin j ∈ st3.tr := by
    rw [hst3, pinStep_tr, hj2]
    exact List.mem_cons_self _ _
  have hfr5 : Ev.freeze j ∈ st5.tr := by
    rw [htr5, htr4]
    exact List.mem_cons_of_mem _ (List.mem_cons_of_mem _ hfr3)
  have hpin5 : Ev.pin j ∈ st5.tr := by
    rw [htr5, htr4]
    exact List.mem_cons_of_mem _ (List.mem_cons_of_mem _ hpin3)
  have hliftD : ∀ e : Ev, e ∈ st5.tr → e ∈ FIN.tr := by
    intro e he
    rw [hFINtr, htrD, htrC]
    exact List.mem_cons_of_mem _ (List.mem_cons_of_mem _ (List.mem_cons_of_mem _
      (List.mem_cons_of_mem _ (List.mem_cons_of_mem _ he))))
  have hmemAim : Ev.aim g none (1, 0, 0) (0, 1, 0) (0, 1, 0) "vector" ∈ FIN.tr := by
    rw [hFINtr, htrD]
    exact List.mem_cons_of_mem _ (List.mem_cons_of_mem _ (List.mem_cons_of_mem _
      (List.mem_cons_self _ _)))
  have hparE : stE.sc.par = sc.par := K05.par_eq
  have hg5 : sc.nextId ≤ g := by
    rw [hg]
    exact K05.nid
  have hgj : g ≠ j := by
    intro hEq
    omega
  have hparwfE : ∀ e ∈ stE.sc.par, e.1 < sc.nextId := by
    rw [hparE]
    exact hparwf
  have hlpE : lookupPar stE.sc g = none := lookupPar_none_of_big hparwfE hg5
  have haffE : affectedB stE.sc j g = false := affectedB_false_of_no_par stE.sc j g hlpE hgj
  have hposeFg : stF.sc.poseF g = stE.sc.poseF g := by
    rw [hstF]
    exact applySubtree_poseF haffE
  have hnidF : stF.sc.nextId = g + 1 := rfl
  have hposeDg : sD.sc.poseF g = stF.sc.poseF g := by
    have hlt : g < stF.sc.nextId := by rw [hnidF]; exact Nat.lt_succ_self g
    exact (keep_createNode (r := g) stF).pose hlt
  have hposeEg : stE.sc.poseF g = stg.sc.poseF c := by
    show (matchTR c g stg).sc.poseF g = stg.sc.poseF c
    simp [matchTR, setPose]
  have hposegc : stg.sc.poseF c = st5.sc.poseF c := by
    have hc5 : c < st5.sc.nextId := lt_of_lt_of_le hcb (show sc.nextId ≤ st5.sc.nextId from K05.nid)
    exact (keep_createNode (r := c) st5).pose hc5
  have hFINpose : FIN.sc.poseF g = sc.poseF c := by
    have h1 : FIN.sc.poseF g = sD.sc.poseF g := by rw [hFIN]; rfl
    rw [h1, hposeDg, hposeFg, hposeEg, hposegc, hpose5c]
  have hdelD : sD.oj.delete_later = (st5.oj.delete_later ++ [g]) ++ [cns] := rfl
  have hFINnodes : FIN.sc.nodes =
      sD.sc.nodes.filter (fun n => !sD.oj.delete_later.contains n) := by
    rw [hFIN]
    rfl
  have hgnot : g ∉ FIN.sc.nodes := by
    intro hmem
    rw [hFINnodes] at hmem
    have h2 := (List.mem_filter.mp hmem).2
    rw [Bool.not_eq_true'] at h2
    have h3 : sD.oj.delete_later.contains g = true := by
      rw [hdelD]
      simp
    rw [h3] at h2
    exact Bool.noConfusion h2
  exact ⟨rfl, hliftD _ hw4, hliftD _ hfr5, hliftD _ hpin5, g, hmemAim, hFINpose, hgnot⟩

/-- C10 witness: joint 1 of the attribute-less demo scene, whose first
child is node 2: the full pipeline runs, warns, aims at a group standing
at node 2 with the constructor defaults, and deletes it again. -/
theorem run_no_orient_attrs_full_pipeline_witness :
    (run effDemo effDemo (mkSt demoScene 1)).1 = Res.ok () ∧
    Ev.warn .noOrientAttrs ∈ (run effDemo effDemo (mkSt demoScene 1)).2.tr ∧
    Ev.freeze 1 ∈ (run effDemo effDemo (mkSt demoScene 1)).2.tr ∧
    Ev.pin 1 ∈ (run effDemo effDemo (mkSt demoScene 1)).2.tr ∧
    ∃ g, Ev.aim g none (1, 0, 0) (0, 1, 0) (0, 1, 0) "vector"
        ∈ (run effDemo effDemo (mkSt demoScene 1)).2.tr ∧
      (run effDemo effDemo (mkSt demoScene 1)).2.sc.poseF g = demoScene.poseF 2 ∧
      g ∉ (run effDemo effDemo (mkSt demoScene 1)).2.sc.nodes :=
  run_no_orient_attrs_full_pipeline demoScene 1 2 [4] effDemo effDemo
    (by decide) (by decide) (by decide) (by decide) (by decide) (by decide)
    (by decide) (by decide)

/-- C9 counterexample: with forced defaults off, the walk over the sibling
roots 0 and 1 — both carrying the attribute set and active, 1 having the
child 2 — aborts inside the very first `run`: joint 0 is a leaf, so its
default `aimAt = child` resolution raises, and `orient.run()` at source
line 251 has no handler, so the error propagates out of
`orient_with_attributes`.  Only node 0 is processed and only node 0 sees
`run`; the configured active joint 1 and its child 2 are never visited and
1 is never oriented.  Walking the same hierarchy without the failing root
shows the promised behaviour — every node visited, exactly the configured
active node oriented — so it is precisely the unhandled raise that breaks
traversal completeness. -/
theorem orient_with_attributes_abort_eval :
    (orient_with_attributes effDemo effDemo (fun _ => true) false 5 scAbort [0, 1]).1
      = Res.err ∧
    (orient_with_attributes effDemo effDemo (fun _ => true) false 5 scAbort [0, 1]).2.2.1
      = [0] ∧
    (orient_with_attributes effDemo effDemo (fun _ => true) false 5 scAbort [0, 1]).2.2.2
      = [0] ∧
    (orient_with_attributes effDemo effDemo (fun _ => true) false 5 scAbort [1]).1
      = Res.ok () ∧
    (orient_with_attributes effDemo effDemo (fun _ => true) false 5 scAbort [1]).2.2.1
      = [1, 2] ∧
    (orient_with_attributes effDemo effDemo (fun _ => true) false 5 scAbort [1]).2.2.2
      = [1] := by
  decide

/-- C9 amended: a node carrying the orient attributes whose type passes the
joint/transform test and whose `run()` raises aborts the whole traversal:
`orient_with_attributes` propagates the error after processing only that
node, so none of the remaining siblings — nor anything below them or below
the failing node — is visited or oriented. -/
theorem orient_with_attributes_run_error_aborts
    (effR effA : Pose → Pose) (typeOk : Nat → Bool) (sc : Scene) (o : Nat)
    (rest : List Nat) (fuel : Nat)
    (hinfo : hasAttrB sc o "ORIENT_INFO" = true)
    (htype : typeOk o = true)
    (hrun : (run effR effA (mkSt sc o)).1 = Res.err) :
    orient_with_attributes effR effA typeOk false (fuel + 1) sc (o :: rest) =
      (Res.err, (run effR effA (mkSt sc o)).2.sc, [o], [o]) := by
  have hrun2 := hrun
  rcases hr : run effR effA (mkSt sc o) with ⟨res, st1⟩
  rw [hr] at hrun2
  dsimp only at hrun2
  subst hrun2
  simp only [orient_with_attributes]
  rw [if_neg (show ¬ ((!(hasAttrB sc o "ORIENT_INFO") && !false) = true) by
    rw [hinfo]; decide)]
  rw [if_neg (show ¬ ((!(hasAttrB sc o "ORIENT_INFO") && typeOk o) = true) by
    rw [hinfo]; simp)]
  rw [if_pos htype]
  rw [hr]

/-- C9 amended witness: on the abort hierarchy the traversal stops at the
failing root 0, with sibling 1 and its child 2 unvisited. -/
theorem orient_with_attributes_run_error_aborts_witness :
    orient_with_attributes effDemo effDemo (fun _ => true) false 5 scAbort [0, 1] =
      (Res.err, (run effDemo effDemo (mkSt scAbort 0)).2.sc, [0], [0]) :=
  orient_with_attributes_run_error_aborts effDemo effDemo (fun _ => true) scAbort 0 [1] 4
    (by decide) (by decide) (by decide)

end JointOrient
